import Mathlib

/-!
Verification development for the DraftFC auction/draft game.

This file is a shallow embedding of the three core subsystems of the
repository — the auction engine of `server.js` (the feature-complete
second implementation, lines 909-1667, which the design notes declare
canonical), the AI bidding subsystem of `ai/AIManager.js`, and the
five-pillar scoring engine — together with theorems settling the
specification's claims about them.

Modelling conventions:
* currency amounts, prices and scores are exact rationals (`ℚ`); the
  JavaScript source computes with IEEE doubles, but every computation
  the claims are about is exact at the magnitudes involved, and the
  handler's `typeof amount === 'number' && Number.isFinite(amount)`
  guard is trivially true in the `ℚ` model, leaving `amount > 0`;
* clock times are integers (milliseconds for the rate limiter,
  seconds for auction countdowns);
* player identifiers are natural numbers (the source uses strings and
  only ever compares them for equality);
* `Math.random()` draws are passed in as explicit rational arguments
  in `[0,1]`, making the AI decision function deterministic in its
  inputs, as the specification's testability notes themselves require;
* `Math.sqrt`, which the Manager-IQ score consumes only through
  comparisons of `stdDev/avg` against the constants 0.5, 1 and 2, is
  eliminated by the equivalent squared comparisons of the variance
  against `avg²/4`, `avg²` and `4·avg²` (exact for nonnegative reals).
-/

namespace DraftFC

/-- JavaScript rounding to the nearest integer, `Math.round(x) = ⌊x + 1/2⌋`
(round half towards positive infinity). -/
def jsRound (q : ℚ) : ℤ := ⌊q + 1/2⌋

/-- Rounding to one decimal place, the idiom `Math.round(x * 10) / 10` used
throughout the scoring engine. -/
def round1 (q : ℚ) : ℚ := (jsRound (q * 10) : ℚ) / 10

/-- JavaScript `Math.ceil` on the rational model. -/
def jsCeil (q : ℚ) : ℤ := ⌈q⌉

theorem jsCeil_as_floor (q : ℚ) : jsCeil q = -⌊-q⌋ := by
  rw [jsCeil, ← Int.ceil_neg, neg_neg]

/-- Per-skill stat bundle of a draftable item (`overallStats` in the data). -/
structure OverallStats where
  paceOverall : ℕ
  shootingOverall : ℕ
  passingOverall : ℕ
  dribblingOverall : ℕ
  defendingOverall : ℕ
  physicalOverall : ℕ
deriving DecidableEq, Repr

/-- An auctionable football player (a catalog entry; `player` in domain
terms).  The source's `_id` string is modelled as the natural `id`; `age`,
`club`, `league`, `nation` and `overallStats` may be absent in the data and
are modelled as options.  `basePrice` is kept in the catalog's units; the
auction engine multiplies it by 1,000,000 when opening an auction. -/
structure DraftItem where
  id : ℕ
  name : String
  rating : ℕ
  position : String
  altPositions : List String
  rarity : String
  age : Option ℕ
  club : Option String
  league : Option String
  nation : Option String
  overallStats : Option OverallStats
  basePrice : ℚ
deriving DecidableEq, Repr

/-- JavaScript truthiness of an optional string: `undefined` and the empty
string are falsy. -/
def strTruthy : Option String → Bool
  | none => false
  | some s => !(s == "")

/-- JavaScript `p.age || 25`: a missing age and an age of 0 both fall back
to the default. -/
def jsAgeOr (v : Option ℕ) (d : ℕ) : ℕ :=
  match v with
  | none => d
  | some n => if n = 0 then d else n

/-- Stat access with JavaScript defaulting, `(stats.xOverall || 0)` after
`player.overallStats || {}`. -/
def statOr0 (s : Option OverallStats) (f : OverallStats → ℕ) : ℕ :=
  match s with
  | none => 0
  | some st => f st

/-- A participant in a room (human or AI competitor; `player` object in
`server.js`). -/
structure Participant where
  id : ℕ
  name : String
  budget : ℚ
  squad : List DraftItem
  isAI : Bool
deriving DecidableEq, Repr

/-- Room settings (configuration surface with fixed defaults). -/
structure Settings where
  startingBudget : ℚ
  squadSize : ℕ
  auctionTimeLimit : ℤ
  minBidIncrement : ℚ
deriving DecidableEq, Repr

/-- Default settings of the canonical server (`DEFAULT_SETTINGS`,
server.js lines 976-983). -/
def DEFAULT_SETTINGS : Settings :=
  { startingBudget := 1000000000
    squadSize := 16
    auctionTimeLimit := 30
    minBidIncrement := 1000000 }

/-- An accepted bid event appended to the auction's history (the source
also stores a wall-clock timestamp, irrelevant to every claim). -/
structure BidRec where
  playerId : ℕ
  playerName : String
  amount : ℚ
  isAI : Bool
deriving DecidableEq, Repr

/-- The live bidding round for one item (`room.currentAuction`). -/
structure Auction where
  player : DraftItem
  currentBid : ℚ
  currentBidder : Option ℕ
  timeRemaining : ℤ
  bidHistory : List BidRec
  status : String
deriving DecidableEq, Repr

/-- Resolution record of one sold auction (`room.soldPlayers` entries). -/
structure SoldRecord where
  player : DraftItem
  buyerId : ℕ
  buyerName : String
  price : ℚ
  auctionNumber : ℕ
deriving DecidableEq, Repr

/-- One match between two participants. -/
structure Room where
  players : List Participant
  settings : Settings
  auctionQueue : List DraftItem
  soldPlayers : List SoldRecord
  currentAuction : Option Auction
  status : String
deriving DecidableEq, Repr

/-- Validation chain of the human `game:bid` handler (server.js lines
1323-1344): reject non-positive amounts, amounts not strictly above the
current bid, amounts above the bidder's budget, and amounts below
`currentBid + minBidIncrement` when `currentBid > 0`.  Returns `true`
exactly when the handler falls through to applying the bid. -/
def gameBidAccepts (auction : Auction) (settings : Settings)
    (bidder : Participant) (amount : ℚ) : Bool :=
  if amount ≤ 0 then false
  else if amount ≤ auction.currentBid then false
  else if bidder.budget < amount then false
  else if amount < auction.currentBid + settings.minBidIncrement ∧ 0 < auction.currentBid then false
  else true

/-- Validation chain of `placeAIBid` (server.js lines 1531-1541): reject
amounts not strictly above the current bid, amounts above the AI's budget,
and the case where the AI is already the current bidder.  Returns `true`
exactly when the function falls through to applying the bid. -/
def placeAIBidAccepts (auction : Auction) (aiPlayer : Participant)
    (amount : ℚ) : Bool :=
  if amount ≤ auction.currentBid then false
  else if aiPlayer.budget < amount then false
  else if auction.currentBidder = some aiPlayer.id then false
  else true

/-- Modelled from the spec: the unified Bid Validator predicate of §4.2,
which the specification asserts both the human and the AI path delegate to.
Rules, in the spec's order: the amount is a finite positive number, is
strictly greater than `currentBid`, is at most the bidder's budget, is at
least `currentBid + settings.minBidIncrement` whenever `currentBid > 0`,
and the bidder is not already the current bidder. -/
def specBidValid (auction : Auction) (settings : Settings)
    (bidderId : ℕ) (budget : ℚ) (amount : ℚ) : Prop :=
  0 < amount ∧
  auction.currentBid < amount ∧
  amount ≤ budget ∧
  (0 < auction.currentBid → auction.currentBid + settings.minBidIncrement ≤ amount) ∧
  auction.currentBidder ≠ some bidderId

instance (auction : Auction) (settings : Settings) (bidderId : ℕ)
    (budget : ℚ) (amount : ℚ) :
    Decidable (specBidValid auction settings bidderId budget amount) := by
  unfold specBidValid; infer_instance

/-- Mutation applied to the auction by an accepted bid; identical in the
human path (server.js lines 1346-1363) and the AI path (lines 1542-1557):
set `currentBid` and `currentBidder`, append the bid record, set status
back to `active` and extend `timeRemaining` to `Math.max(10, timeRemaining)`. -/
def applyBid (a : Auction) (bidderId : ℕ) (bidderName : String)
    (amount : ℚ) (isAI : Bool) : Auction :=
  { a with
    currentBid := amount
    currentBidder := some bidderId
    bidHistory := a.bidHistory ++ [⟨bidderId, bidderName, amount, isAI⟩]
    status := "active"
    timeRemaining := max 10 a.timeRemaining }

/-- Lookup of a participant by id, `room.players.find(p => p.id === pid)`. -/
def findPlayer (ps : List Participant) (pid : ℕ) : Option Participant :=
  ps.find? (fun p => p.id == pid)

/-- In-place mutation of the first participant with the given id, the
functional rendering of the source mutating the object returned by `find`. -/
def updateFirst (pid : ℕ) (f : Participant → Participant) :
    List Participant → List Participant
  | [] => []
  | q :: rest => if q.id = pid then f q :: rest else q :: updateFirst pid f rest

/-- Combined size of both squads,
`room.players.reduce((sum, p) => sum + p.squad.length, 0)`. -/
def sumSquads (r : Room) : ℕ := (r.players.map (fun p => p.squad.length)).sum

/-- Replace the room's current auction. -/
def setAuction (r : Room) (a : Auction) : Room := { r with currentAuction := some a }

/-- Game end (`endGame`, server.js lines 1614-1643): the room becomes
`finished`; scoring is a separate read-only computation. -/
def endGame (r : Room) : Room := { r with status := "finished" }

/-- Opening of the next auction (`startNextAuction`, server.js lines
1443-1460): with an empty queue the game ends, otherwise the head item is
popped and a fresh auction is created with `currentBid = basePrice * 1000000`,
no bidder, the configured time limit, empty history and status `active`. -/
def startNextAuction (r : Room) : Room :=
  match r.auctionQueue with
  | [] => endGame r
  | item :: rest =>
    { r with
      auctionQueue := rest
      currentAuction := some
        { player := item
          currentBid := item.basePrice * 1000000
          currentBidder := none
          timeRemaining := r.settings.auctionTimeLimit
          bidHistory := []
          status := "active" } }

/-- Resolution of the current auction (`endCurrentAuction`, server.js lines
1566-1612): with a bidder, the winner's budget decreases by `currentBid`,
the item is appended to the winner's squad and a `SoldRecord` is appended;
then the auction is cleared, and the game ends when the queue is empty or
the squads' combined size has reached `settings.squadSize * 2`. -/
def endCurrentAuction (r : Room) : Room :=
  match r.currentAuction with
  | none => r
  | some a =>
    let r1 :=
      match a.currentBidder with
      | none => r
      | some pid =>
        match findPlayer r.players pid with
        | none => r
        | some w =>
          { r with
            players := updateFirst pid (fun p =>
              { p with
                budget := p.budget - a.currentBid
                squad := p.squad ++ [a.player] }) r.players
            soldPlayers := r.soldPlayers ++
              [({ player := a.player, buyerId := pid, buyerName := w.name,
                  price := a.currentBid,
                  auctionNumber := r.soldPlayers.length + 1 } : SoldRecord)] }
    let r2 := { r1 with currentAuction := none }
    if r2.auctionQueue.length = 0 ∨ 2 * r2.settings.squadSize ≤ sumSquads r2
    then endGame r2 else r2

/-- One second of countdown on the auction itself: decrement
`timeRemaining`, then flip the status to `going_once` at 5 and
`going_twice` at 3 when a bidder exists. -/
def tickAuction (a : Auction) : Auction :=
  let t := a.timeRemaining - 1
  let st :=
    if t = 5 ∧ a.currentBidder.isSome then "going_once"
    else if t = 3 ∧ a.currentBidder.isSome then "going_twice"
    else a.status
  { a with timeRemaining := t, status := st }

/-- The per-room 1 Hz timer callback (server.js lines 1468-1505): tick the
auction and, once `timeRemaining ≤ 0`, resolve it. -/
def tickRoom (r : Room) (a : Auction) : Room :=
  let a1 := tickAuction a
  if a1.timeRemaining ≤ 0 then endCurrentAuction (setAuction r a1)
  else setAuction r a1

/-- The transitions the event loop can apply to a live room: opening the
next auction, an accepted human bid (`game:bid` handler), an accepted AI bid
(`placeAIBid` — note the source checks the room status only on the human
path), and the timer tick. -/
inductive Step : Room → Room → Prop
  | start (r : Room) :
      r.status = "auction" → r.currentAuction = none →
      Step r (startNextAuction r)
  | humanBid (r : Room) (a : Auction) (p : Participant) (amount : ℚ) :
      r.status = "auction" → r.currentAuction = some a →
      p ∈ r.players →
      gameBidAccepts a r.settings p amount = true →
      Step r (setAuction r (applyBid a p.id p.name amount false))
  | aiBid (r : Room) (a : Auction) (p : Participant) (amount : ℚ) :
      r.currentAuction = some a →
      p ∈ r.players →
      placeAIBidAccepts a p amount = true →
      Step r (setAuction r (applyBid a p.id p.name amount true))
  | tick (r : Room) (a : Auction) :
      r.currentAuction = some a →
      Step r (tickRoom r a)

/-- Reachability by any sequence of accepted bids, ticks and resolutions. -/
def Reachable : Room → Room → Prop := Relation.ReflTransGen Step

/-- The state the `game:start` handler leaves the room in: status
`auction`, no live auction yet, all squads empty, all budgets at the
configured starting budget, distinct participant ids. -/
def GameStart (r : Room) : Prop :=
  r.status = "auction" ∧ r.currentAuction = none ∧
  (∀ p ∈ r.players, p.squad = [] ∧ p.budget = r.settings.startingBudget) ∧
  (r.players.map (fun p => p.id)).Nodup

/-- Per-socket rate limiter state (`rateLimits` map entries). -/
structure RateLimitEntry where
  windowStart : ℤ
  count : ℕ
  lastBid : ℤ
deriving DecidableEq, Repr

def RATE_LIMIT_maxActions : ℕ := 20
def RATE_LIMIT_windowMs : ℤ := 1000
def RATE_LIMIT_bidCooldownMs : ℤ := 500

/-- The rate limiter check (`isRateLimited`, server.js lines 942-962) for
one socket: returns whether the action is limited together with the map
entry stored afterwards.  A missing or stale entry (older than the window)
is replaced by a fresh one; the count is incremented; a bid within
`bidCooldownMs` of the recorded `lastBid` returns limited immediately (the
early return skips `rateLimits.set`, so a fresh object is not stored while
an in-place incremented one already is); otherwise `lastBid` is updated and
the count is compared against `maxActions`. -/
def isRateLimited (entry : Option RateLimitEntry) (now : ℤ) (isBidAction : Bool) :
    Bool × Option RateLimitEntry :=
  let fresh : Bool :=
    match entry with
    | none => true
    | some l => decide (RATE_LIMIT_windowMs < now - l.windowStart)
  let base : RateLimitEntry :=
    if fresh then ⟨now, 0, 0⟩ else entry.getD ⟨now, 0, 0⟩
  let l1 := { base with count := base.count + 1 }
  if isBidAction ∧ now - l1.lastBid < RATE_LIMIT_bidCooldownMs then
    (true, if fresh then entry else some l1)
  else
    let l2 := if isBidAction then { l1 with lastBid := now } else l1
    (decide (RATE_LIMIT_maxActions < l2.count), some l2)

/-- The `game:bid` handler (server.js lines 1305-1364) as one function on
the room and the bidder's rate-limit entry: the rate limiter runs first and
a limited bid returns with the room untouched; otherwise the room/status
guards and the validation chain run, and an accepted bid is applied.  The
boolean result records whether the rate limiter rejected the bid. -/
def gameBidHandler (entry : Option RateLimitEntry) (now : ℤ) (r : Room)
    (p : Participant) (amount : ℚ) : Room × Option RateLimitEntry × Bool :=
  let rl := isRateLimited entry now true
  if rl.1 then (r, rl.2, true)
  else if r.status = "auction" then
    match r.currentAuction with
    | none => (r, rl.2, false)
    | some a =>
      if p ∈ r.players then
        if gameBidAccepts a r.settings p amount then
          (setAuction r (applyBid a p.id p.name amount false), rl.2, false)
        else (r, rl.2, false)
      else (r, rl.2, false)
  else (r, rl.2, false)

/-- Difficulty tunables of the AI decision engine (`AI_DIFFICULTY`). -/
structure AIConfig where
  name : String
  bidProbability : ℚ
  maxBidPercentage : ℚ
  bidAggressiveness : ℚ
  reactionTimeMin : ℚ
  reactionTimeMax : ℚ
  positionAwareness : ℚ
  ratingThreshold : ℕ
deriving DecidableEq, Repr

def AI_DIFFICULTY_easy : AIConfig :=
  { name := "Easy", bidProbability := 0.4, maxBidPercentage := 0.15
    bidAggressiveness := 1.05, reactionTimeMin := 2000, reactionTimeMax := 5000
    positionAwareness := 0.3, ratingThreshold := 85 }

def AI_DIFFICULTY_medium : AIConfig :=
  { name := "Medium", bidProbability := 0.6, maxBidPercentage := 0.20
    bidAggressiveness := 1.10, reactionTimeMin := 1500, reactionTimeMax := 4000
    positionAwareness := 0.6, ratingThreshold := 80 }

def AI_DIFFICULTY_hard : AIConfig :=
  { name := "Hard", bidProbability := 0.8, maxBidPercentage := 0.25
    bidAggressiveness := 1.15, reactionTimeMin := 800, reactionTimeMax := 2500
    positionAwareness := 0.9, ratingThreshold := 75 }

/-- Positional need of the AI (`calculatePositionNeed`, AIManager.js lines
131-161): current counts against the ideal 2 GK / 5 DEF / 5 MID / 4 ATT
distribution; a missing goalkeeper is critical (need 1), an already-covered
group has need 0.1, otherwise the need is proportional to the deficit. -/
def calculatePositionNeed (position : String) (squad : List DraftItem) : ℚ :=
  let gkCount := (squad.filter (fun p => p.position == "GK")).length
  let defCount := (squad.filter (fun p => ["CB", "LB", "RB"].contains p.position)).length
  let midCount := (squad.filter (fun p => ["CDM", "CM", "CAM", "LM", "RM"].contains p.position)).length
  let attCount := (squad.filter (fun p => ["LW", "RW", "ST"].contains p.position)).length
  let isGK := position = "GK"
  let isDEF := ["CB", "LB", "RB"].contains position
  let isMID := ["CDM", "CM", "CAM", "LM", "RM"].contains position
  let current : ℕ :=
    if isGK then gkCount else if isDEF then defCount
    else if isMID then midCount else attCount
  let needed : ℕ :=
    if isGK then 2 else if isDEF then 5 else if isMID then 5 else 4
  if isGK ∧ current = 0 then 1
  else if needed ≤ current then 0.1
  else ((needed : ℚ) - (current : ℚ)) / (needed : ℚ)

/-- Rarity bonus lookup of `evaluatePlayer`, `rarityBonus[player.rarity] || 0`. -/
def rarityBonusAI (r : String) : ℚ :=
  if r = "legendary" then 15 else if r = "epic" then 10
  else if r = "rare" then 5 else 0

/-- Item evaluation of the AI (`evaluatePlayer`, AIManager.js lines 87-126):
rating share (up to 50), rarity bonus (up to 15), positional-need bonus
(up to 20, scaled by the difficulty's position awareness) and a
position-specific stat bonus (up to 15; a flat 20 for a goalkeeper when the
squad has none), clamped to `[0, 100]`. -/
def evaluatePlayer (cfg : AIConfig) (player : DraftItem)
    (aiPlayer : Participant) : ℚ :=
  let score0 : ℚ := (player.rating : ℚ) / 99 * 50
  let score1 := score0 + rarityBonusAI player.rarity
  let need := calculatePositionNeed player.position aiPlayer.squad
  let score2 := score1 + need * 20 * cfg.positionAwareness
  let score3 :=
    match player.overallStats with
    | none => score2
    | some stats =>
      if ["ST", "LW", "RW"].contains player.position then
        score2 + ((stats.shootingOverall : ℚ) + (stats.paceOverall : ℚ)) / 200 * 15
      else if ["CM", "CAM", "CDM"].contains player.position then
        score2 + ((stats.passingOverall : ℚ) + (stats.dribblingOverall : ℚ)) / 200 * 15
      else if ["CB", "LB", "RB"].contains player.position then
        score2 + ((stats.defendingOverall : ℚ) + (stats.physicalOverall : ℚ)) / 200 * 15
      else if player.position = "GK" then
        score2 + (if aiPlayer.squad.any (fun p => p.position == "GK") then 0 else 20)
      else score2
  min 100 (max 0 score3)

/-- Maximum bid the AI is willing to make (`calculateMaxBid`, AIManager.js
lines 166-183): the minimum of the scaled base price times
`0.5 + (valueScore/100) * 1.5`, the budget times the difficulty's
`maxBidPercentage`, and the per-auction budget throttle
`budget / max(1, (36 - 2*squadLength)/2)`. -/
def calculateMaxBid (cfg : AIConfig) (player : DraftItem)
    (aiPlayer : Participant) (valueScore : ℚ) : ℚ :=
  let baseMultiplier : ℚ := 0.5 + valueScore / 100 * 1.5
  let baseMax := player.basePrice * 1000000 * baseMultiplier
  let budgetCap := aiPlayer.budget * cfg.maxBidPercentage
  let auctionsRemaining : ℚ := 36 - (aiPlayer.squad.length : ℚ) * 2
  let budgetPerAuction := aiPlayer.budget / max 1 (auctionsRemaining / 2)
  min (min baseMax budgetCap) budgetPerAuction

/-- The AI bid decision (`decideBid`, AIManager.js lines 189-248).  The
three `Math.random()` draws are the explicit arguments `r1` (low-value
gate), `r2` (probability gate) and `r3` (±5% variation), each in `[0,1]`;
`none` is "no bid", `some amount` the proposed amount. -/
def decideBid (cfg : AIConfig) (auction : Auction) (aiPlayer : Participant)
    (room : Room) (r1 r2 r3 : ℚ) : Option ℚ :=
  if auction.currentBidder = some aiPlayer.id then none
  else if room.settings.squadSize ≤ aiPlayer.squad.length then none
  else
    let player := auction.player
    let valueScore := evaluatePlayer cfg player aiPlayer
    if (player.rating < cfg.ratingThreshold ∧ valueScore < 50) ∧
        cfg.bidProbability * 0.5 < r1 then none
    else if cfg.bidProbability < r2 then none
    else
      let maxBid := calculateMaxBid cfg player aiPlayer valueScore
      if maxBid ≤ auction.currentBid then none
      else
        let minIncrement := room.settings.minBidIncrement
        let bidAmount0 := auction.currentBid + minIncrement
        let aggressiveBid := auction.currentBid * cfg.bidAggressiveness
        let bidAmount1 :=
          if bidAmount0 < aggressiveBid ∧ aggressiveBid ≤ maxBid
          then (jsCeil (aggressiveBid / minIncrement) : ℚ) * minIncrement
          else bidAmount0
        let variation := (r3 * 0.1 - 0.05) * bidAmount1
        let bidAmount2 := (jsCeil ((bidAmount1 + variation) / minIncrement) : ℚ) * minIncrement
        let bidAmount3 := min (min bidAmount2 maxBid) aiPlayer.budget
        let bidAmount4 := max bidAmount3 (auction.currentBid + minIncrement)
        if aiPlayer.budget < bidAmount4 ∨ bidAmount4 ≤ auction.currentBid then none
        else some bidAmount4

/-- Re-validation at execution time of a scheduled AI bid
(`processAuctionTurn`, AIManager.js lines 283-291): the bid is applied only
if the AI is not already the highest bidder, more than 2 seconds remain,
and the chosen amount still beats the current bid within budget. -/
def aiExecuteRecheck (auction : Auction) (aiPlayer : Participant)
    (amount : ℚ) : Bool :=
  decide (auction.currentBidder ≠ some aiPlayer.id) &&
  decide (2 < auction.timeRemaining) &&
  decide (auction.currentBid < amount) &&
  decide (amount ≤ aiPlayer.budget)

/-- Fixed pillar weights of the scoring engine (`SCORE_WEIGHTS`). -/
structure ScoreWeights where
  power : ℚ
  tactical : ℚ
  chemistry : ℚ
  balance : ℚ
  managerIQ : ℚ
deriving DecidableEq, Repr

def SCORE_WEIGHTS : ScoreWeights :=
  { power := 0.30, tactical := 0.20, chemistry := 0.20
    balance := 0.15, managerIQ := 0.15 }

/-- Position-group classification of the scoring engine
(`POSITION_GROUPS` iterated in insertion order, with `MID` as the
fallback for an unknown position). -/
def getPositionGroup (position : String) : String :=
  if ["GK"].contains position then "GK"
  else if ["CB", "LB", "RB", "LWB", "RWB"].contains position then "DEF"
  else if ["CDM", "CM", "CAM", "LM", "RM"].contains position then "MID"
  else if ["LW", "RW", "ST", "CF", "LF", "RF"].contains position then "FWD"
  else "MID"

/-- One entry of the `POSITION_COMPATIBILITY` table. -/
structure PosCompat where
  natural : List String
  secondary : List String
  penalty : ℚ
deriving DecidableEq, Repr

/-- The `POSITION_COMPATIBILITY` table of the scoring engine. -/
def POSITION_COMPATIBILITY (pos : String) : Option PosCompat :=
  if pos = "GK" then some ⟨["GK"], [], -20⟩
  else if pos = "CB" then some ⟨["CB"], ["CDM", "RB", "LB"], -8⟩
  else if pos = "LB" then some ⟨["LB"], ["LWB", "LM", "CB"], -6⟩
  else if pos = "RB" then some ⟨["RB"], ["RWB", "RM", "CB"], -6⟩
  else if pos = "CDM" then some ⟨["CDM"], ["CM", "CB"], -5⟩
  else if pos = "CM" then some ⟨["CM"], ["CDM", "CAM", "LM", "RM"], -4⟩
  else if pos = "CAM" then some ⟨["CAM"], ["CM", "LW", "RW", "ST"], -4⟩
  else if pos = "LM" then some ⟨["LM"], ["LW", "LB", "CM"], -4⟩
  else if pos = "RM" then some ⟨["RM"], ["RW", "RB", "CM"], -4⟩
  else if pos = "LW" then some ⟨["LW"], ["LM", "ST", "CAM"], -5⟩
  else if pos = "RW" then some ⟨["RW"], ["RM", "ST", "CAM"], -5⟩
  else if pos = "ST" then some ⟨["ST", "CF"], ["CAM", "LW", "RW"], -6⟩
  else none

/-- An available formation (`FORMATIONS` entries; the cosmetic
`displayName`/`structure` strings are omitted). -/
structure Formation where
  name : String
  positions : List String
deriving DecidableEq, Repr

def formation433 : Formation :=
  ⟨"4-3-3", ["GK", "LB", "CB", "CB", "RB", "CM", "CM", "CM", "LW", "ST", "RW"]⟩
def formation442 : Formation :=
  ⟨"4-4-2", ["GK", "LB", "CB", "CB", "RB", "LM", "CM", "CM", "RM", "ST", "ST"]⟩
def formation4231 : Formation :=
  ⟨"4-2-3-1", ["GK", "LB", "CB", "CB", "RB", "CDM", "CDM", "LM", "CAM", "RM", "ST"]⟩
def formation352 : Formation :=
  ⟨"3-5-2", ["GK", "CB", "CB", "CB", "LM", "CDM", "CM", "CM", "RM", "ST", "ST"]⟩
def formation4141 : Formation :=
  ⟨"4-1-4-1", ["GK", "LB", "CB", "CB", "RB", "CDM", "LM", "CM", "CM", "RM", "ST"]⟩
def formation532 : Formation :=
  ⟨"5-3-2", ["GK", "LB", "CB", "CB", "CB", "RB", "CM", "CM", "CM", "ST", "ST"]⟩
def formation4321 : Formation :=
  ⟨"4-3-2-1", ["GK", "LB", "CB", "CB", "RB", "CM", "CM", "CM", "LW", "RW", "ST"]⟩

def FORMATIONS : List Formation :=
  [formation433, formation442, formation4231, formation352,
   formation4141, formation532, formation4321]

/-- All known positions for parsing (`ALL_POSITIONS`). -/
def ALL_POSITIONS : List String :=
  ["GK", "CB", "LB", "RB", "LWB", "RWB", "CDM", "CM", "CAM", "LM", "RM",
   "LW", "RW", "ST", "CF", "LF", "RF"]

/-- The stable sort of `ALL_POSITIONS` by descending length used by the
alternate-position tokenizer (`[...ALL_POSITIONS].sort((a, b) => b.length - a.length)`,
V8 stable sort). -/
def sortedPositionsDesc : List String :=
  ["LWB", "RWB", "CDM", "CAM", "GK", "CB", "LB", "RB", "CM", "LM", "RM",
   "LW", "RW", "ST", "CF", "LF", "RF"]

/-- The first known position that is a prefix of the remaining characters. -/
def matchPosTok (cs : List Char) : Option String :=
  sortedPositionsDesc.find? (fun p => p.toList.isPrefixOf cs)

theorem sortedPositionsDesc_min_len : ∀ p ∈ sortedPositionsDesc, 1 ≤ p.length := by
  decide

/-- The `while` loop of `parseAltPositions` splitting a combined string
like `"CDMCAM"` into known positions, skipping unknown characters. -/
def tokenizePositions : List Char → List String
  | [] => []
  | c :: cs =>
    match h : matchPosTok (c :: cs) with
    | some p => p :: tokenizePositions (List.drop p.length (c :: cs))
    | none => tokenizePositions cs
termination_by l => l.length
decreasing_by
  · have hp : 1 ≤ p.length :=
      sortedPositionsDesc_min_len p (List.mem_of_find?_eq_some h)
    simp only [List.length_drop, List.length_cons]
    omega
  · simp

/-- Deduplication keeping the first occurrence, `[...new Set(list)]`. -/
def dedupKeepFirst : List String → List String
  | [] => []
  | a :: l => a :: dedupKeepFirst (l.filter (fun x => !(x == a)))
termination_by l => l.length
decreasing_by
  have := List.length_filter_le (fun x => !(x == a)) l
  simp only [List.length_cons]
  omega

/-- Parsing of alternate positions from various formats
(`parseAltPositions`): valid single positions pass through, combined
strings are upper-cased and tokenized, and duplicates are removed keeping
first occurrences. -/
def parseAltPositions (altPositions : List String) : List String :=
  let parsed := altPositions.flatMap (fun pos =>
    if ALL_POSITIONS.contains pos then [pos]
    else tokenizePositions (pos.toList.map Char.toUpper))
  dedupKeepFirst parsed

/-- All positions a player can fill (`getAllPlayerPositions`). -/
def getAllPlayerPositions (player : DraftItem) : List String :=
  dedupKeepFirst (player.position :: parseAltPositions player.altPositions)

/-- Result record of `validateSquad`; the four position counts stand for
the source's `positionCounts` object. -/
structure SquadValidation where
  isValid : Bool
  hasElevenPlayers : Bool
  hasGoalkeeper : Bool
  hasMinDefenders : Bool
  hasMinMidfielders : Bool
  hasMinForwards : Bool
  errors : List String
  gkCount : ℕ
  defCount : ℕ
  midCount : ℕ
  fwdCount : ℕ
deriving DecidableEq, Repr

/-- Squad validation (`validateSquad`, scoring engine lines 128-184):
exactly 11 players, at least 1 GK, 3 DEF, 2 MID and 1 FWD by position
group, with an error string pushed for each failed check. -/
def validateSquad (players : List DraftItem) : SquadValidation :=
  let gkCount := (players.filter (fun p => getPositionGroup p.position == "GK")).length
  let defCount := (players.filter (fun p => getPositionGroup p.position == "DEF")).length
  let midCount := (players.filter (fun p => getPositionGroup p.position == "MID")).length
  let fwdCount := (players.filter (fun p => getPositionGroup p.position == "FWD")).length
  let hasElevenPlayers := players.length = 11
  let hasGoalkeeper := 1 ≤ gkCount
  let hasMinDefenders := 3 ≤ defCount
  let hasMinMidfielders := 2 ≤ midCount
  let hasMinForwards := 1 ≤ fwdCount
  let errors :=
    (if hasElevenPlayers then [] else
      ["Squad has " ++ toString players.length ++ " players, needs exactly 11"]) ++
    (if hasGoalkeeper then [] else ["Squad needs at least 1 Goalkeeper"]) ++
    (if hasMinDefenders then [] else
      ["Squad has " ++ toString defCount ++ " defenders, needs at least 3"]) ++
    (if hasMinMidfielders then [] else
      ["Squad has " ++ toString midCount ++ " midfielders, needs at least 2"]) ++
    (if hasMinForwards then [] else
      ["Squad has " ++ toString fwdCount ++ " forwards, needs at least 1"])
  { isValid := hasElevenPlayers ∧ hasGoalkeeper ∧ hasMinDefenders ∧
      hasMinMidfielders ∧ hasMinForwards
    hasElevenPlayers := hasElevenPlayers
    hasGoalkeeper := hasGoalkeeper
    hasMinDefenders := hasMinDefenders
    hasMinMidfielders := hasMinMidfielders
    hasMinForwards := hasMinForwards
    errors := errors
    gkCount := gkCount, defCount := defCount
    midCount := midCount, fwdCount := fwdCount }

/-- Power-score record (`calculatePowerScore` result; only the fields
consumed elsewhere in the engine or by the claims are carried). -/
structure PowerScore where
  total : ℚ
  avgOverall : ℚ
  keyStatsAvg : ℚ
  superstarBonus : ℚ
  legendaryBonus : ℚ
deriving DecidableEq, Repr

/-- Position-specific key-stat blend of one player inside
`calculatePowerScore`: shooting/pace/dribbling for forwards,
passing/dribbling/physical for midfielders, defending/physical/pace for
defenders, and the raw rating for goalkeepers. -/
def keyStatsOf (player : DraftItem) : ℚ :=
  let stats := player.overallStats
  let group := getPositionGroup player.position
  if group = "FWD" then
    (statOr0 stats (·.paceOverall) : ℚ) * 0.3 +
    (statOr0 stats (·.shootingOverall) : ℚ) * 0.5 +
    (statOr0 stats (·.dribblingOverall) : ℚ) * 0.2
  else if group = "MID" then
    (statOr0 stats (·.passingOverall) : ℚ) * 0.4 +
    (statOr0 stats (·.dribblingOverall) : ℚ) * 0.3 +
    (statOr0 stats (·.physicalOverall) : ℚ) * 0.3
  else if group = "DEF" then
    (statOr0 stats (·.defendingOverall) : ℚ) * 0.5 +
    (statOr0 stats (·.physicalOverall) : ℚ) * 0.3 +
    (statOr0 stats (·.paceOverall) : ℚ) * 0.2
  else if group = "GK" then (player.rating : ℚ)
  else 0

/-- Power pillar (`calculatePowerScore`, scoring engine lines 192-270):
`0.6·avgRating + 0.3·keyStatsAvg`, scaled by 1.1, plus +3 per 90-rated
player and +2 per legendary, capped at 100, rounded to one decimal. -/
def calculatePowerScore (players : List DraftItem) : PowerScore :=
  if players.length = 0 then ⟨0, 0, 0, 0, 0⟩
  else
    let n : ℚ := players.length
    let avgOverall := (players.map (fun p => (p.rating : ℚ))).sum / n
    let keyStatsSum := (players.map keyStatsOf).sum
    let keyStatsAvg := keyStatsSum / n
    let superstarBonus : ℚ := ((players.filter (fun p => decide (90 ≤ p.rating))).length : ℚ) * 3
    let legendaryBonus : ℚ := ((players.filter (fun p => p.rarity == "legendary")).length : ℚ) * 2
    let basePower := avgOverall * 0.6 + keyStatsAvg * 0.3
    let bonuses := superstarBonus + legendaryBonus
    let total := min 100 (basePower * 1.1 + bonuses)
    ⟨round1 total, round1 avgOverall, round1 keyStatsAvg, superstarBonus, legendaryBonus⟩

/-- Tactical-score record (`calculateTacticalScore` result; the stored
`formationFit` and `roleBalance` are the source's `Math.round`ed copies). -/
structure TacticalScore where
  total : ℚ
  naturalPositions : ℕ
  secondaryPositions : ℕ
  outOfPosition : ℕ
  formationFit : ℤ
  roleBalance : ℤ
deriving DecidableEq, Repr

/-- State threaded through the tactical assignment passes: remaining
formation slots, ids already assigned, and the natural/secondary counters. -/
structure TacticalPassState where
  slots : List String
  assigned : List ℕ
  naturalCount : ℕ
  secondaryCount : ℕ
deriving DecidableEq, Repr

/-- First pass: each player whose main position matches a remaining
formation slot takes it (bonus 10). -/
def tacticalPass1 (players : List DraftItem) (st : TacticalPassState) : TacticalPassState :=
  players.foldl (fun st player =>
    match st.slots.findIdx? (fun fp => fp == player.position) with
    | some idx =>
      { st with slots := st.slots.eraseIdx idx
                assigned := st.assigned ++ [player.id]
                naturalCount := st.naturalCount + 1 }
    | none => st) st

/-- First remaining slot matched by one of the player's parsed alternate
positions, scanned in order. -/
def firstAltSlot (slots : List String) : List String → Option ℕ
  | [] => none
  | ap :: rest =>
    match slots.findIdx? (fun fp => fp == ap) with
    | some idx => some idx
    | none => firstAltSlot slots rest

/-- Second pass: unassigned players take a slot matching one of their
alternate positions (bonus 8, counted as secondary). -/
def tacticalPass2 (players : List DraftItem) (st : TacticalPassState) : TacticalPassState :=
  players.foldl (fun st player =>
    if st.assigned.contains player.id then st
    else
      match firstAltSlot st.slots (parseAltPositions player.altPositions) with
      | some idx =>
        { st with slots := st.slots.eraseIdx idx
                  assigned := st.assigned ++ [player.id]
                  secondaryCount := st.secondaryCount + 1 }
      | none => st) st

/-- Third pass: unassigned players take the first remaining slot their
compatibility entry lists as secondary (bonus 5, counted as secondary). -/
def tacticalPass3 (players : List DraftItem) (st : TacticalPassState) : TacticalPassState :=
  players.foldl (fun st player =>
    if st.assigned.contains player.id then st
    else
      let compat := (POSITION_COMPATIBILITY player.position).getD ⟨[], [], -5⟩
      match st.slots.findIdx? (fun fp => compat.secondary.contains fp) with
      | some idx =>
        { st with slots := st.slots.eraseIdx idx
                  assigned := st.assigned ++ [player.id]
                  secondaryCount := st.secondaryCount + 1 }
      | none => st) st

/-- Tactical pillar (`calculateTacticalScore`, scoring engine lines
280-428): four assignment passes of decreasing strictness, formation fit
(100 minus 15 per unassigned player, floored at 0), role balance penalties
for missing goalkeeper/striker/insufficient center-backs, and the blended
clamped total. -/
def calculateTacticalScore (players : List DraftItem) (formation : Formation) :
    TacticalScore :=
  if players.length = 0 then ⟨0, 0, 0, 0, 0, 0⟩
  else
    let st0 : TacticalPassState := ⟨formation.positions, [], 0, 0⟩
    let st3 := tacticalPass3 players (tacticalPass2 players (tacticalPass1 players st0))
    let unassigned := players.filter (fun p => !(st3.assigned.contains p.id))
    let outOfPosition := unassigned.length
    let outPenaltySum : ℚ := (unassigned.map (fun p =>
      ((POSITION_COMPATIBILITY p.position).getD ⟨[], [], -5⟩).penalty)).sum
    let formationFit : ℚ := max 0 (100 - (outOfPosition : ℚ) * 15)
    let hasGK := players.any (fun p => p.position == "GK")
    let hasStriker := players.any (fun p => p.position == "ST" || p.position == "CF")
    let cbCount := (players.filter (fun p => p.position == "CB")).length
    let gkPen : ℚ := if hasGK then 0 else 30
    let stPen : ℚ := if hasStriker then 0 else 15
    let cbPen : ℚ := if cbCount < 2 then 10 else 0
    let roleBalance : ℚ := 100 - gkPen - stPen - cbPen
    let penaltySum : ℚ := outPenaltySum - gkPen - stPen - cbPen
    let positionScore : ℚ := (st3.naturalCount : ℚ) * 10 + (st3.secondaryCount : ℚ) * 6
    let total := max 0 (min 100
      (positionScore / (players.length : ℚ) * 10 + formationFit * 0.3 +
        roleBalance * 0.2 + penaltySum))
    { total := round1 (max 0 total)
      naturalPositions := st3.naturalCount
      secondaryPositions := st3.secondaryCount
      outOfPosition := outOfPosition
      formationFit := jsRound formationFit
      roleBalance := jsRound roleBalance }

/-- Chemistry-score record. -/
structure ChemistryScore where
  total : ℚ
deriving DecidableEq, Repr

/-- All ordered pairs `(i, j)` with `i < j`, in the order of the source's
double loop. -/
def listPairs : List α → List (α × α)
  | [] => []
  | x :: rest => rest.map (fun y => (x, y)) ++ listPairs rest

/-- Pairwise link bonus of two squad members: shared club +4, shared
league +2, shared nation +2 (absent or empty values never link). -/
def chemLinkBonus (p1 p2 : DraftItem) : ℚ :=
  (if strTruthy p1.club && strTruthy p2.club && (p1.club == p2.club) then 4 else 0) +
  (if strTruthy p1.league && strTruthy p2.league && (p1.league == p2.league) then 2 else 0) +
  (if strTruthy p1.nation && strTruthy p2.nation && (p1.nation == p2.nation) then 2 else 0)

/-- Shared club or nation, the cross-line link condition. -/
def sharesClubOrNation (a b : DraftItem) : Bool :=
  (strTruthy a.club && strTruthy b.club && (a.club == b.club)) ||
  (strTruthy a.nation && strTruthy b.nation && (a.nation == b.nation))

/-- Chemistry pillar (`calculateChemistryScore`, scoring engine lines
436-538): pairwise link bonuses normalized by the maximum possible pair
count and scaled by 30, cross-line DEF-MID and MID-FWD links (2 points
each, capped 20), a rarity-mix bonus (legendary·3 + epic·1.5, capped 15)
and +3 per strong link (pair bonus at least 6), capped at 100. -/
def calculateChemistryScore (players : List DraftItem) : ChemistryScore :=
  if players.length < 2 then ⟨0⟩
  else
    let pairBonuses := (listPairs players).map (fun pq => chemLinkBonus pq.1 pq.2)
    let links := pairBonuses.filter (fun b => decide (0 < b))
    let totalBonus := links.sum
    let strongLinks := (links.filter (fun b => decide (6 ≤ b))).length
    let defenders := players.filter (fun p => getPositionGroup p.position == "DEF")
    let midfielders := players.filter (fun p => getPositionGroup p.position == "MID")
    let forwards := players.filter (fun p => getPositionGroup p.position == "FWD")
    let lineLinks :=
      ((defenders.map (fun d => (midfielders.filter (fun m => sharesClubOrNation d m)).length)).sum) +
      ((midfielders.map (fun m => (forwards.filter (fun f => sharesClubOrNation m f)).length)).sum)
    let legendaryCount := (players.filter (fun p => p.rarity == "legendary")).length
    let epicCount := (players.filter (fun p => p.rarity == "epic")).length
    let playstyleBonus : ℚ := min 15 ((legendaryCount : ℚ) * 3 + (epicCount : ℚ) * 1.5)
    let maxPossibleLinks : ℚ := (players.length : ℚ) * ((players.length : ℚ) - 1) / 2
    let linkScore := if 0 < links.length then totalBonus / maxPossibleLinks * 30 else 0
    let lineScore : ℚ := min 20 ((lineLinks : ℚ) * 2)
    let total := min 100 (linkScore + lineScore + playstyleBonus + (strongLinks : ℚ) * 3)
    ⟨round1 total⟩

/-- Balance-score record. -/
structure BalanceScore where
  total : ℚ
deriving DecidableEq, Repr

/-- Balance pillar (`calculateBalanceScore`, scoring engine lines 546-635):
position-coverage, wing-balance, age-distribution and squad-depth
components, each starting at 100 and penalized, blended 0.4/0.2/0.15/0.25
and floored at 0. -/
def calculateBalanceScore (players : List DraftItem) : BalanceScore :=
  if players.length = 0 then ⟨0⟩
  else
    let gk := (players.filter (fun p => getPositionGroup p.position == "GK")).length
    let defC := (players.filter (fun p => getPositionGroup p.position == "DEF")).length
    let midC := (players.filter (fun p => getPositionGroup p.position == "MID")).length
    let fwdC := (players.filter (fun p => getPositionGroup p.position == "FWD")).length
    let positionCoverage : ℚ := 100 -
      (if gk = 0 then 40 else 0) -
      (if defC < 3 then ((3 - defC : ℕ) : ℚ) * 15 else 0) -
      (if midC < 2 then ((2 - midC : ℕ) : ℚ) * 10 else 0) -
      (if fwdC < 1 then 20 else 0) -
      (if 5 < fwdC then ((fwdC - 5 : ℕ) : ℚ) * 5 else 0)
    let leftSide := (players.filter (fun p => ["LB", "LM", "LW", "LWB"].contains p.position)).length
    let rightSide := (players.filter (fun p => ["RB", "RM", "RW", "RWB"].contains p.position)).length
    let wingDiff := max leftSide rightSide - min leftSide rightSide
    let wingBalance : ℚ := 100 -
      (if leftSide = 0 then 15 else 0) -
      (if rightSide = 0 then 15 else 0) -
      (if 2 < wingDiff then ((wingDiff - 2 : ℕ) : ℚ) * 5 else 0)
    let ages := players.map (fun p => jsAgeOr p.age 25)
    let avgAge : ℚ := ((ages.map (fun a => (a : ℚ))).sum) / (players.length : ℚ)
    let youngPlayers := (ages.filter (fun a => a < 24)).length
    let ageDistribution : ℚ := 100 -
      (if 31 < avgAge then 10 else 0) -
      (if youngPlayers = 0 ∧ 11 ≤ players.length then 5 else 0)
    let depthScore : ℚ :=
      if players.length < 11 then ((players.length : ℚ) / 11) * 100 else 100
    let total := positionCoverage * 0.4 + wingBalance * 0.2 +
      ageDistribution * 0.15 + depthScore * 0.25
    ⟨round1 (max 0 total)⟩

/-- Manager-IQ-score record. -/
structure IQScore where
  total : ℚ
deriving DecidableEq, Repr

/-- Manager-IQ pillar (`calculateManagerIQScore`, scoring engine lines
643-787): budget efficiency (power per million spent), steal-bid bonuses
from the base-price/paid-price ratio, squad-completion bonus, and a
risk-management component; with no purchases the score is 0.  The source
compares `priceStdDev / avgPricePerPlayer` against 0.5, 1 and 2; the
square root is eliminated here by comparing the variance against
`avg²/4`, `avg²` and `4·avg²`, which is equivalent for nonnegative
values. -/
def calculateManagerIQScore (players : List DraftItem)
    (soldPlayers : List SoldRecord) (playerId : ℕ)
    (startingBudget : ℚ) : IQScore :=
  let purchases := soldPlayers.filter (fun sp => sp.buyerId == playerId)
  if purchases.length = 0 then ⟨0⟩
  else
    let totalSpent := (purchases.map (fun p => p.price)).sum
    let remainingBudget := startingBudget - totalSpent
    let powerScore := calculatePowerScore players
    let budgetEfficiency :=
      if 0 < totalSpent then powerScore.total / (totalSpent / 1000000) * 10 else 0
    let stealBids : ℚ := (purchases.map (fun purchase =>
      let expectedPrice := purchase.player.basePrice * 1000000
      let valueRatio := expectedPrice / purchase.price
      if (1.5 : ℚ) < valueRatio then (5 : ℚ)
      else if (1.2 : ℚ) < valueRatio then 3
      else if valueRatio < 0.6 then -3 else 0)).sum
    let squadCompletion : ℚ :=
      if 11 ≤ players.length then 30 + (if purchases.length ≤ 15 then 10 else 0)
      else ((players.length : ℚ) / 11) * 25
    let avgPricePerPlayer := totalSpent / (purchases.length : ℚ)
    let priceVariance :=
      ((purchases.map (fun p => (p.price - avgPricePerPlayer) ^ 2)).sum) /
        (purchases.length : ℚ)
    let covBoost : ℚ :=
      if avgPricePerPlayer ≤ 0 then 20
      else if priceVariance < avgPricePerPlayer ^ 2 * 0.25 then 20
      else if priceVariance < avgPricePerPlayer ^ 2 then 10
      else if avgPricePerPlayer ^ 2 * 4 < priceVariance then -15 else 0
    let budgetUsage := totalSpent / startingBudget
    let riskManagement : ℚ := 50 + covBoost -
      (if 0.95 < budgetUsage ∧ players.length < 11 then 20 else 0) -
      (if startingBudget * 0.3 < remainingBudget ∧ players.length < 11 then 10 else 0)
    let total := min 100
      (budgetEfficiency * 0.3 + stealBids + squadCompletion + riskManagement * 0.4)
    ⟨round1 (max 0 total)⟩

/-- Formation auto-selection (`selectBestFormation`, scoring engine lines
795-817), driven by the squad's position-group distribution. -/
def selectBestFormation (players : List DraftItem) : Formation :=
  let defC := (players.filter (fun p => getPositionGroup p.position == "DEF")).length
  let midC := (players.filter (fun p => getPositionGroup p.position == "MID")).length
  let fwdC := (players.filter (fun p => getPositionGroup p.position == "FWD")).length
  if 5 ≤ defC then ((FORMATIONS.find? (fun f => f.name == "5-3-2")).getD formation433)
  else if 3 ≤ fwdC then ((FORMATIONS.find? (fun f => f.name == "4-3-3")).getD formation433)
  else if 5 ≤ midC then ((FORMATIONS.find? (fun f => f.name == "3-5-2")).getD formation433)
  else if 2 ≤ fwdC ∧ 4 ≤ midC then ((FORMATIONS.find? (fun f => f.name == "4-4-2")).getD formation433)
  else ((FORMATIONS.find? (fun f => f.name == "4-3-3")).getD formation433)

/-- Per-squad analysis result (`analyzeTeam`; the narrative-only `mvp`,
`bestTacticalChoice` and `bestValueSigning` fields are omitted). -/
structure TeamAnalysis where
  validation : SquadValidation
  power : PowerScore
  tactical : TacticalScore
  chemistry : ChemistryScore
  balance : BalanceScore
  managerIQ : IQScore
  finalScore : ℚ
  formation : Formation
deriving DecidableEq, Repr

/-- Main analysis (`analyzeTeam`, scoring engine lines 824-896): the five
pillars weighted 0.30/0.20/0.20/0.15/0.15; an invalid squad keeps 30% of
the weighted score (floored at 0); the stored final score is rounded to
one decimal. -/
def analyzeTeam (player : Participant) (soldPlayers : List SoldRecord)
    (startingBudget : ℚ) : TeamAnalysis :=
  let squad := player.squad
  let validation := validateSquad squad
  let formation := selectBestFormation squad
  let power := calculatePowerScore squad
  let tactical := calculateTacticalScore squad formation
  let chemistry := calculateChemistryScore squad
  let balance := calculateBalanceScore squad
  let managerIQ := calculateManagerIQScore squad soldPlayers player.id startingBudget
  let weighted :=
    power.total * SCORE_WEIGHTS.power +
    tactical.total * SCORE_WEIGHTS.tactical +
    chemistry.total * SCORE_WEIGHTS.chemistry +
    balance.total * SCORE_WEIGHTS.balance +
    managerIQ.total * SCORE_WEIGHTS.managerIQ
  let finalScore := if validation.isValid then weighted else max 0 (weighted * 0.3)
  { validation := validation, power := power, tactical := tactical
    chemistry := chemistry, balance := balance, managerIQ := managerIQ
    finalScore := round1 finalScore, formation := formation }

/-- Game-result record (`calculateGameResult`; the narrative fields —
radar comparison, pillar gaps, legacy breakdown, MVP — are omitted). -/
structure GameResult where
  winner : Participant
  loser : Participant
  winByDefault : Bool
  winnerAnalysis : TeamAnalysis
  loserAnalysis : TeamAnalysis
deriving DecidableEq, Repr

/-- Winner determination (`calculateGameResult`, scoring engine lines
903-958): with both squads invalid the higher partial score wins; exactly
one invalid loses by default; with both valid the higher `finalScore`
wins.  Every comparison is `analysis1.finalScore >= analysis2.finalScore`,
so player 1 takes all ties.  Rooms without two participants are not a
meaningful input (`none`). -/
def calculateGameResult (room : Room) : Option GameResult :=
  match room.players with
  | p1 :: p2 :: _ =>
    let analysis1 := analyzeTeam p1 room.soldPlayers room.settings.startingBudget
    let analysis2 := analyzeTeam p2 room.soldPlayers room.settings.startingBudget
    some (
      if !analysis1.validation.isValid && !analysis2.validation.isValid then
        if analysis2.finalScore ≤ analysis1.finalScore then
          ⟨p1, p2, false, analysis1, analysis2⟩
        else ⟨p2, p1, false, analysis2, analysis1⟩
      else if !analysis1.validation.isValid then ⟨p2, p1, true, analysis2, analysis1⟩
      else if !analysis2.validation.isValid then ⟨p1, p2, true, analysis1, analysis2⟩
      else if analysis2.finalScore ≤ analysis1.finalScore then
        ⟨p1, p2, false, analysis1, analysis2⟩
      else ⟨p2, p1, false, analysis2, analysis1⟩)
  | _ => none

/-! Helper lemmas shared by several claims. -/

lemma gameBidAccepts_iff (a : Auction) (s : Settings) (p : Participant) (amount : ℚ) :
    gameBidAccepts a s p amount = true ↔
      (0 < amount ∧ a.currentBid < amount ∧ amount ≤ p.budget ∧
        (0 < a.currentBid → a.currentBid + s.minBidIncrement ≤ amount)) := by
  simp only [gameBidAccepts]
  split_ifs with h1 h2 h3 h4
  · simp only [Bool.false_eq_true, false_iff]
    rintro ⟨hp, -, -, -⟩; linarith
  · simp only [Bool.false_eq_true, false_iff]
    rintro ⟨-, hgt, -, -⟩; linarith
  · simp only [Bool.false_eq_true, false_iff]
    rintro ⟨-, -, hle, -⟩; linarith
  · simp only [Bool.false_eq_true, false_iff]
    rintro ⟨-, -, -, himp⟩
    have := himp h4.2; linarith [h4.1]
  · simp only [true_iff]
    push_neg at h1 h2 h3
    refine ⟨h1, h2, h3, fun hcb => ?_⟩
    by_contra hcon
    push_neg at hcon
    exact h4 ⟨hcon, hcb⟩

lemma placeAIBidAccepts_iff (a : Auction) (p : Participant) (amount : ℚ) :
    placeAIBidAccepts a p amount = true ↔
      (a.currentBid < amount ∧ amount ≤ p.budget ∧ a.currentBidder ≠ some p.id) := by
  simp only [placeAIBidAccepts]
  split_ifs with h1 h2 h3
  · simp only [Bool.false_eq_true, false_iff]
    rintro ⟨h, -, -⟩; linarith
  · simp only [Bool.false_eq_true, false_iff]
    rintro ⟨-, h, -⟩; linarith
  · simp only [Bool.false_eq_true, false_iff]
    rintro ⟨-, -, h⟩; exact h h3
  · simp only [true_iff]
    push_neg at h1 h2
    exact ⟨h1, h2, h3⟩

lemma endCurrentAuction_auction_none (r : Room) :
    (endCurrentAuction r).currentAuction = none := by
  rcases hr : r.currentAuction with _ | a
  · simpa only [endCurrentAuction, hr]
  · simp only [endCurrentAuction, hr]
    rcases a.currentBidder with _ | pid
    · split <;> rfl
    · rcases findPlayer r.players pid with _ | w <;> (split <;> rfl)

/-! Shared concrete fixtures. -/

def itemA : DraftItem :=
  { id := 100, name := "ItemA", rating := 80, position := "ST"
    altPositions := [], rarity := "rare", age := some 25
    club := none, league := none, nation := none
    overallStats := none, basePrice := 80 }

def alice : Participant :=
  { id := 1, name := "Alice", budget := 1000000000, squad := [], isAI := false }

def botB : Participant :=
  { id := 2, name := "Bot", budget := 1000000000, squad := [], isAI := true }

def auctionC1 : Auction :=
  { player := itemA, currentBid := 80000000, currentBidder := some 1
    timeRemaining := 20, bidHistory := [], status := "active" }

/-- C1: the claim asserts that every applied bid, on either path,
satisfies the unified Bid Validator predicate (including rules 4 and 5).
It is false on both paths: the human handler applies Alice's bid of
81,000,000 although she is already the current bidder (rule 5 is not
checked on the human path), and `placeAIBid` applies the AI's bid of
80,000,001 although it is below `currentBid + minBidIncrement`
(rule 4 is not checked on the AI path). -/
theorem C1_counterexample :
    gameBidAccepts auctionC1 DEFAULT_SETTINGS alice 81000000 = true ∧
    ¬ specBidValid auctionC1 DEFAULT_SETTINGS alice.id alice.budget 81000000 ∧
    placeAIBidAccepts auctionC1 botB 80000001 = true ∧
    ¬ specBidValid auctionC1 DEFAULT_SETTINGS botB.id botB.budget 80000001 := by
  refine ⟨?_, ?_, ?_, ?_⟩
  · norm_num [gameBidAccepts, auctionC1, alice, DEFAULT_SETTINGS]
  · simp [specBidValid, auctionC1, alice]
  · norm_num [placeAIBidAccepts, auctionC1, botB]
  · norm_num [specBidValid, auctionC1, botB, DEFAULT_SETTINGS]

/-- C1 (amended): the two paths are not refinements of one shared
validator.  The human `game:bid` handler accepts exactly when the amount
is positive, strictly above `currentBid`, within budget, and at least
`currentBid + minBidIncrement` when `currentBid > 0` — it never checks
that the bidder differs from the current bidder.  `placeAIBid` accepts
exactly when the amount is strictly above `currentBid`, within budget,
and the AI is not the current bidder — it checks neither positivity nor
the minimum increment. -/
theorem C1_amended (a : Auction) (s : Settings) (p : Participant) (amount : ℚ) :
    (gameBidAccepts a s p amount = true ↔
      (0 < amount ∧ a.currentBid < amount ∧ amount ≤ p.budget ∧
        (0 < a.currentBid → a.currentBid + s.minBidIncrement ≤ amount))) ∧
    (placeAIBidAccepts a p amount = true ↔
      (a.currentBid < amount ∧ amount ≤ p.budget ∧ a.currentBidder ≠ some p.id)) :=
  ⟨gameBidAccepts_iff a s p amount, placeAIBidAccepts_iff a p amount⟩

/-! C4 fixtures: a freshly opened auction on an item of base price 80. -/

def roomC4 : Room :=
  { players := [alice, botB], settings := DEFAULT_SETTINGS
    auctionQueue := [itemA], soldPlayers := []
    currentAuction := none, status := "auction" }

def a0C4 : Auction :=
  { player := itemA, currentBid := 80000000, currentBidder := none
    timeRemaining := 30, bidHistory := [], status := "active" }

/-- C4: the claim says the very first bid of an auction is exempt from the
minimum-increment floor and may equal the item's base price exactly.  It
is false: `startNextAuction` opens the auction with
`currentBid = basePrice * 1000000 = 80000000 > 0`, so on the fresh auction
(empty bid history) a first bid equal to the base price (80), equal to the
scaled base price (80,000,000), or above it but below
`currentBid + minBidIncrement` (80,500,000) is rejected by the handler. -/
theorem C4_counterexample :
    (startNextAuction roomC4).currentAuction = some a0C4 ∧
    a0C4.bidHistory = [] ∧
    a0C4.currentBid = itemA.basePrice * 1000000 ∧
    gameBidAccepts a0C4 DEFAULT_SETTINGS alice itemA.basePrice = false ∧
    gameBidAccepts a0C4 DEFAULT_SETTINGS alice (itemA.basePrice * 1000000) = false ∧
    gameBidAccepts a0C4 DEFAULT_SETTINGS alice 80500000 = false := by
  refine ⟨?_, rfl, by norm_num [a0C4, itemA], ?_, ?_, ?_⟩
  · simp only [startNextAuction, roomC4, a0C4, DEFAULT_SETTINGS]
    norm_num [itemA]
  · norm_num [gameBidAccepts, a0C4, alice, itemA, DEFAULT_SETTINGS]
  · norm_num [gameBidAccepts, a0C4, alice, itemA, DEFAULT_SETTINGS]
  · norm_num [gameBidAccepts, a0C4, alice, DEFAULT_SETTINGS]

/-- C4 (amended): every accepted bid — first or later, on either path — is
strictly above the auction's `currentBid`, so `currentBid` is strictly
increasing along any accepted sequence (any step that grows the bid
history strictly raises `currentBid`); a human-path bid must additionally
be at least `currentBid + minBidIncrement` whenever `currentBid > 0`,
which includes the very first bid because the auction opens at
`currentBid = basePrice * 1000000`; the AI path enforces only the strict
increase, not the increment floor. -/
theorem C4_amended (r r₁ : Room) (a a₁ : Auction) (s : Settings)
    (p : Participant) (amount : ℚ) :
    (gameBidAccepts a s p amount = true →
      a.currentBid < amount ∧
      (0 < a.currentBid → a.currentBid + s.minBidIncrement ≤ amount)) ∧
    (placeAIBidAccepts a p amount = true → a.currentBid < amount) ∧
    (Step r r₁ → r.currentAuction = some a → r₁.currentAuction = some a₁ →
      a.bidHistory.length < a₁.bidHistory.length → a.currentBid < a₁.currentBid) := by
  refine ⟨?_, ?_, ?_⟩
  · intro h
    have := (gameBidAccepts_iff a s p amount).mp h
    exact ⟨this.2.1, this.2.2.2⟩
  · intro h
    exact ((placeAIBidAccepts_iff a p amount).mp h).1
  · intro hstep h1 h2 hlen
    cases hstep with
    | start hs hc => rw [hc] at h1; cases h1
    | humanBid a' q amt hs hc hm hacc =>
      rw [hc] at h1
      injection h1 with h1; subst h1
      simp only [setAuction, applyBid] at h2
      injection h2 with h2; subst h2
      exact ((gameBidAccepts_iff _ _ _ _).mp hacc).2.1
    | aiBid a' q amt hc hm hacc =>
      rw [hc] at h1
      injection h1 with h1; subst h1
      simp only [setAuction, applyBid] at h2
      injection h2 with h2; subst h2
      exact ((placeAIBidAccepts_iff _ _ _).mp hacc).1
    | tick a' hc =>
      rw [hc] at h1
      injection h1 with h1; subst h1
      rw [tickRoom] at h2
      split_ifs at h2 with ht
      · rw [endCurrentAuction_auction_none (setAuction r (tickAuction a'))] at h2
        cases h2
      · simp only [setAuction] at h2
        injection h2 with h2
        rw [← h2] at hlen
        simp only [tickAuction] at hlen
        omega

/-- C4 (amended) witness: a concrete accepted second bid 81,000,000 over a
current bid of 80,000,000 with increment 1,000,000. -/
theorem C4_amended_witness :
    gameBidAccepts auctionC1 DEFAULT_SETTINGS alice 81000000 = true ∧
    auctionC1.currentBid < 81000000 ∧
    (0 < auctionC1.currentBid →
      auctionC1.currentBid + DEFAULT_SETTINGS.minBidIncrement ≤ 81000000) := by
  have hacc : gameBidAccepts auctionC1 DEFAULT_SETTINGS alice 81000000 = true := by
    norm_num [gameBidAccepts, auctionC1, alice, DEFAULT_SETTINGS]
  have h := (C4_amended roomC4 roomC4 auctionC1 auctionC1 DEFAULT_SETTINGS
    alice 81000000).1 hacc
  exact ⟨hacc, h.1, h.2⟩

/-- C5: an accepted bid (the shared mutation of the human handler and
`placeAIBid`) sets `currentBid` to the amount, `currentBidder` to the
bidder, appends the bid record, resets the status to `active`, and sets
`timeRemaining` to `max(10, timeRemaining)` — so at least 10 seconds
always remain after any accepted bid, and the room's live auction becomes
exactly the updated one. -/
theorem C5_applyBid_post (r : Room) (a : Auction) (p : Participant)
    (amount : ℚ) (isAI : Bool) :
    (applyBid a p.id p.name amount isAI).currentBid = amount ∧
    (applyBid a p.id p.name amount isAI).currentBidder = some p.id ∧
    (applyBid a p.id p.name amount isAI).bidHistory =
      a.bidHistory ++ [⟨p.id, p.name, amount, isAI⟩] ∧
    (applyBid a p.id p.name amount isAI).status = "active" ∧
    (applyBid a p.id p.name amount isAI).timeRemaining = max 10 a.timeRemaining ∧
    10 ≤ (applyBid a p.id p.name amount isAI).timeRemaining ∧
    (setAuction r (applyBid a p.id p.name amount isAI)).currentAuction =
      some (applyBid a p.id p.name amount isAI) := by
  refine ⟨rfl, rfl, rfl, rfl, rfl, ?_, rfl⟩
  simp [applyBid]

/-! C10 fixtures: a rate-limit entry recorded by a first bid at t = 100000ms
(window started at 100000), and a room with a live auction. -/

def rlAfterFirstBid : Option RateLimitEntry := some ⟨100000, 1, 100000⟩

def roomC10 : Room :=
  { players := [alice, botB], settings := DEFAULT_SETTINGS
    auctionQueue := [], soldPlayers := []
    currentAuction := some a0C4, status := "auction" }

/-- C10: the claim says a second bid less than 500ms after the previous
one is always rejected.  It is false when the rate-limit window (1000ms)
expires between the two bids: a bid at t = 100900 passes (900ms since the
previous bid), and the next bid at t = 101300 — only 400ms later — also
passes, because `now - windowStart = 1300 > 1000` resets the entry
(including `lastBid := 0`) before the cooldown check; the handler then
proceeds to validation and applies the bid, changing the auction state. -/
theorem C10_counterexample :
    isRateLimited rlAfterFirstBid 100900 true = (false, some ⟨100000, 2, 100900⟩) ∧
    (isRateLimited (some ⟨100000, 2, 100900⟩) 101300 true).1 = false ∧
    (101300 : ℤ) - 100900 < RATE_LIMIT_bidCooldownMs ∧
    (gameBidHandler (some ⟨100000, 2, 100900⟩) 101300 roomC10 alice 81000000).1.currentAuction =
      some (applyBid a0C4 alice.id alice.name 81000000 false) := by
  refine ⟨by decide, by decide, by decide, ?_⟩
  have hacc : gameBidAccepts a0C4 DEFAULT_SETTINGS alice 81000000 = true := by
    norm_num [gameBidAccepts, a0C4, alice, DEFAULT_SETTINGS]
  have hrl : (isRateLimited (some ⟨100000, 2, 100900⟩) 101300 true).1 = false := by decide
  simp only [gameBidHandler, hrl, Bool.false_eq_true, if_false, roomC10]
  norm_num [hacc, setAuction]

/-- C10 (amended): when the bidder's stored rate-limit entry is still
inside the current window (`now - windowStart ≤ 1000`ms) and the new bid
arrives within 500ms of the stored `lastBid`, the rate limiter rejects it
and the `game:bid` handler returns with the room unchanged (before any
validation, for every amount); the in-place `count++` on the stored entry
is the only effect.  Without the same-window proviso the rejection is not
guaranteed (see the counterexample: a window reset also resets `lastBid`). -/
theorem C10_amended (l : RateLimitEntry) (now : ℤ) (r : Room)
    (p : Participant) (amount : ℚ)
    (hwin : now - l.windowStart ≤ RATE_LIMIT_windowMs)
    (hcool : now - l.lastBid < RATE_LIMIT_bidCooldownMs) :
    (isRateLimited (some l) now true).1 = true ∧
    gameBidHandler (some l) now r p amount =
      (r, some { l with count := l.count + 1 }, true) := by
  have hfresh : ¬ (RATE_LIMIT_windowMs < now - l.windowStart) := not_lt.mpr hwin
  have hlim : isRateLimited (some l) now true =
      (true, some { l with count := l.count + 1 }) := by
    simp [isRateLimited, hfresh, hcool]
  refine ⟨by rw [hlim], ?_⟩
  simp only [gameBidHandler, hlim, if_true]

/-- C10 (amended) witness: a bid at t = 100300, 300ms after the recorded
bid at t = 100000 inside the same window, is rejected and the room is
unchanged. -/
theorem C10_amended_witness :
    (100300 : ℤ) - 100000 ≤ RATE_LIMIT_windowMs ∧
    (100300 : ℤ) - 100000 < RATE_LIMIT_bidCooldownMs ∧
    (isRateLimited rlAfterFirstBid 100300 true).1 = true ∧
    gameBidHandler rlAfterFirstBid 100300 roomC10 alice 81000000 =
      (roomC10, some ⟨100000, 2, 100000⟩, true) := by
  have h := C10_amended ⟨100000, 1, 100000⟩ 100300 roomC10 alice 81000000
    (by decide) (by decide)
  exact ⟨by decide, by decide, h.1, h.2⟩

/-! Infrastructure for the reachability invariants (C2, C3). -/

lemma findPlayer_of_mem_nodup (ps : List Participant) (p : Participant)
    (hmem : p ∈ ps) (hnodup : (ps.map (fun x => x.id)).Nodup) :
    findPlayer ps p.id = some p := by
  induction ps with
  | nil => cases hmem
  | cons q rest ih =>
    simp only [List.map_cons, List.nodup_cons] at hnodup
    rcases List.mem_cons.mp hmem with rfl | hrest
    · simp [findPlayer]
    · have hne : q.id ≠ p.id := by
        intro he
        exact hnodup.1 (he ▸ List.mem_map_of_mem (fun x => x.id) hrest)
      have hbeq : (q.id == p.id) = false := by simpa using hne
      simp only [findPlayer, List.find?_cons, hbeq]
      exact ih hrest hnodup.2

lemma mem_updateFirst {pid : ℕ} {f : Participant → Participant}
    {ps : List Participant} {x : Participant} (hx : x ∈ updateFirst pid f ps) :
    x ∈ ps ∨ ∃ q, findPlayer ps pid = some q ∧ x = f q := by
  induction ps with
  | nil => simp only [updateFirst] at hx; cases hx
  | cons h rest ih =>
    by_cases hid : h.id = pid
    · simp only [updateFirst, if_pos hid] at hx
      rcases List.mem_cons.mp hx with rfl | hrest
      · right
        refine ⟨h, ?_, rfl⟩
        simp [findPlayer, hid]
      · exact Or.inl (List.mem_cons_of_mem _ hrest)
    · simp only [updateFirst, if_neg hid] at hx
      rcases List.mem_cons.mp hx with rfl | hrest
      · exact Or.inl (List.mem_cons_self _ _)
      · rcases ih hrest with hm | ⟨q, hfind, he⟩
        · exact Or.inl (List.mem_cons_of_mem _ hm)
        · right
          refine ⟨q, ?_, he⟩
          have hbeq : (h.id == pid) = false := by simpa using hid
          simpa only [findPlayer, List.find?_cons, hbeq] using hfind

lemma map_id_updateFirst (pid : ℕ) (f : Participant → Participant)
    (ps : List Participant) (hf : ∀ q, (f q).id = q.id) :
    (updateFirst pid f ps).map (fun p => p.id) = ps.map (fun p => p.id) := by
  induction ps with
  | nil => rfl
  | cons h rest ih =>
    by_cases hid : h.id = pid
    · simp [updateFirst, hid, hf]
    · simp [updateFirst, hid, ih]

lemma sum_len_updateFirst (pid : ℕ) (f : Participant → Participant)
    (ps : List Participant) (w : Participant)
    (hf : ∀ q, (f q).squad.length = q.squad.length + 1)
    (hfind : findPlayer ps pid = some w) :
    ((updateFirst pid f ps).map (fun p => p.squad.length)).sum =
      ((ps.map (fun p => p.squad.length)).sum) + 1 := by
  induction ps with
  | nil => simp [findPlayer] at hfind
  | cons h rest ih =>
    by_cases hid : h.id = pid
    · simp only [updateFirst, if_pos hid, List.map_cons, List.sum_cons, hf]
      omega
    · have hbeq : (h.id == pid) = false := by simpa using hid
      have hfind' : findPlayer rest pid = some w := by
        simpa only [findPlayer, List.find?_cons, hbeq] using hfind
      simp only [updateFirst, if_neg hid, List.map_cons, List.sum_cons, ih hfind']
      omega

/-- Squad-size invariant: with a live auction (or the possibility of one)
there is room for one more item relative to the combined cap
`2 * squadSize`; the cap itself always holds. -/
def InvSquads (S : ℕ) (r : Room) : Prop :=
  r.settings.squadSize = S ∧
  (r.currentAuction.isSome → r.status = "auction") ∧
  (r.status = "auction" → sumSquads r + 1 ≤ 2 * S) ∧
  sumSquads r ≤ 2 * S

/-- Budget invariant: budgets are nonnegative and a live auction's current
bid is covered by the current bidder's budget. -/
def InvBudgets (ids : List ℕ) (r : Room) : Prop :=
  r.players.map (fun p => p.id) = ids ∧
  (∀ p ∈ r.players, 0 ≤ p.budget) ∧
  (∀ a pid, r.currentAuction = some a → a.currentBidder = some pid →
    ∃ w, findPlayer r.players pid = some w ∧ a.currentBid ≤ w.budget)

/-- The participant update a winning resolution applies. -/
def resolveUpd (a : Auction) : Participant -> Participant := fun p =>
  { p with budget := p.budget - a.currentBid, squad := p.squad ++ [a.player] }

lemma endCurrentAuction_shape (r : Room) :
    (r.currentAuction = none ∧ endCurrentAuction r = r) ∨
    (∃ r1 : Room, r1.settings = r.settings ∧ r1.auctionQueue = r.auctionQueue ∧
      r1.status = r.status ∧
      (r1.players = r.players ∨
        ∃ a pid w, r.currentAuction = some a ∧ a.currentBidder = some pid ∧
          findPlayer r.players pid = some w ∧
          r1.players = updateFirst pid (resolveUpd a) r.players) ∧
      endCurrentAuction r =
        (if ({ r1 with currentAuction := none } : Room).auctionQueue.length = 0 ∨
            2 * ({ r1 with currentAuction := none } : Room).settings.squadSize ≤
              sumSquads { r1 with currentAuction := none }
         then endGame { r1 with currentAuction := none }
         else { r1 with currentAuction := none })) := by
  rcases hc : r.currentAuction with _ | a
  · left
    refine ⟨rfl, ?_⟩
    simp only [endCurrentAuction, hc]
  · right
    rcases hb : a.currentBidder with _ | pid
    · refine ⟨r, rfl, rfl, rfl, Or.inl rfl, ?_⟩
      simp only [endCurrentAuction, hc, hb]
    · rcases hw : findPlayer r.players pid with _ | w
      · refine ⟨r, rfl, rfl, rfl, Or.inl rfl, ?_⟩
        simp only [endCurrentAuction, hc, hb, hw]
      · refine ⟨{ r with
            players := updateFirst pid (resolveUpd a) r.players
            soldPlayers := r.soldPlayers ++
              [({ player := a.player, buyerId := pid, buyerName := w.name,
                  price := a.currentBid,
                  auctionNumber := r.soldPlayers.length + 1 } : SoldRecord)] },
          rfl, rfl, rfl, Or.inr ⟨a, pid, w, rfl, hb, hw, rfl⟩, ?_⟩
        simp only [endCurrentAuction, hc, hb, hw, resolveUpd]
        rfl

lemma sumSquads_resolve (r : Room) (a : Auction) (pid : ℕ) (w : Participant)
    (hw : findPlayer r.players pid = some w) :
    ((updateFirst pid (resolveUpd a) r.players).map (fun p => p.squad.length)).sum =
      sumSquads r + 1 :=
  sum_len_updateFirst pid (resolveUpd a) r.players w (fun q => by simp [resolveUpd]) hw

lemma invSquads_endCurrentAuction (S : ℕ) (r : Room)
    (hset : r.settings.squadSize = S)
    (hsum : sumSquads r + 1 ≤ 2 * S) :
    InvSquads S (endCurrentAuction r) := by
  rcases endCurrentAuction_shape r with ⟨hc, heq⟩ | ⟨r1, hs1, hq1, hst1, hp1, heq⟩
  · rw [heq]
    exact ⟨hset, fun h => absurd (Option.isSome_iff_exists.mp h) (by simp [hc]),
      fun _ => by omega, by omega⟩
  · have hsum1 : sumSquads r1 = sumSquads r ∨ sumSquads r1 = sumSquads r + 1 := by
      rcases hp1 with hp | ⟨a, pid, w, _, _, hw, hp⟩
      · exact Or.inl (by rw [sumSquads, hp]; rfl)
      · exact Or.inr (by rw [sumSquads, hp]; exact sumSquads_resolve r a pid w hw)
    rw [heq]
    have hset2 : ({ r1 with currentAuction := none } : Room).settings.squadSize = S := by
      show r1.settings.squadSize = S
      rw [hs1, hset]
    have hsum2 : sumSquads { r1 with currentAuction := none } = sumSquads r1 := rfl
    split_ifs with hg
    · refine ⟨hset2, by simp [endGame], by simp [endGame], ?_⟩
      show sumSquads { r1 with currentAuction := none } ≤ 2 * S
      rw [hsum2]; omega
    · push_neg at hg
      rw [hset2] at hg
      refine ⟨hset2, by simp, fun _ => ?_, ?_⟩
      · show sumSquads { r1 with currentAuction := none } + 1 ≤ 2 * S
        omega
      · show sumSquads { r1 with currentAuction := none } ≤ 2 * S
        rw [hsum2]; omega

lemma invBudgets_endCurrentAuction (ids : List ℕ) (r : Room)
    (hinv : InvBudgets ids r) :
    InvBudgets ids (endCurrentAuction r) := by
  obtain ⟨hids, hbud, hcover⟩ := hinv
  rcases endCurrentAuction_shape r with ⟨hc, heq⟩ | ⟨r1, hs1, hq1, hst1, hp1, heq⟩
  · rw [heq]; exact ⟨hids, hbud, hcover⟩
  · have hplayers : (r1.players.map (fun p => p.id) = ids) ∧
        (∀ x ∈ r1.players, 0 ≤ x.budget) := by
      rcases hp1 with hp | ⟨a, pid, w, hca, hcb, hw, hp⟩
      · rw [hp]; exact ⟨hids, hbud⟩
      · constructor
        · rw [hp, map_id_updateFirst pid (resolveUpd a) r.players (fun q => rfl)]
          exact hids
        · intro x hx
          rw [hp] at hx
          rcases mem_updateFirst hx with hm | ⟨q, hq, rfl⟩
          · exact hbud x hm
          · obtain ⟨w2, hw2, hble⟩ := hcover a pid hca hcb
            rw [hw2] at hq
            injection hq with hq
            subst hq
            simpa [resolveUpd] using sub_nonneg.mpr hble
    rw [heq]
    split_ifs with hg
    · exact ⟨hplayers.1, hplayers.2, by simp [endGame]⟩
    · exact ⟨hplayers.1, hplayers.2, by simp⟩

lemma invSquads_step (S : ℕ) {r rOut : Room} (hstep : Step r rOut)
    (h : InvSquads S r) : InvSquads S rOut := by
  obtain ⟨hset, hlive, hroom, hcap⟩ := h
  cases hstep with
  | start hs hc =>
    rcases hq : r.auctionQueue with _ | ⟨item, rest⟩ <;>
      simp only [startNextAuction, hq]
    · exact ⟨hset, by simp [endGame, hc], by simp [endGame], hcap⟩
    · exact ⟨hset, fun _ => hs, fun _ => hroom hs, hcap⟩
  | humanBid aCur q amt hs hc hm hacc =>
    exact ⟨hset, fun _ => hs, fun _ => hroom hs, hcap⟩
  | aiBid aCur q amt hc hm hacc =>
    have hs : r.status = "auction" := hlive (by simp [hc])
    exact ⟨hset, fun _ => hs, fun _ => hroom hs, hcap⟩
  | tick aCur hc =>
    have hs : r.status = "auction" := hlive (by simp [hc])
    rw [tickRoom]
    split_ifs with ht
    · exact invSquads_endCurrentAuction S _ hset (hroom hs)
    · exact ⟨hset, fun _ => hs, fun _ => hroom hs, hcap⟩

lemma invBudgets_step (ids : List ℕ) (hids : ids.Nodup) {r rOut : Room}
    (hstep : Step r rOut) (h : InvBudgets ids r) : InvBudgets ids rOut := by
  obtain ⟨hid, hbud, hcover⟩ := h
  cases hstep with
  | start hs hc =>
    rcases hq : r.auctionQueue with _ | ⟨item, rest⟩ <;>
      simp only [startNextAuction, hq]
    · exact ⟨hid, hbud, by simp [endGame, hc]⟩
    · refine ⟨hid, hbud, ?_⟩
      intro a pid ha hb
      simp only [Option.some.injEq] at ha
      rw [← ha] at hb
      cases hb
  | humanBid aCur q amt hs hc hm hacc =>
    refine ⟨hid, hbud, ?_⟩
    intro a pid ha hb
    simp only [setAuction, Option.some.injEq] at ha
    rw [← ha] at hb
    simp only [applyBid, Option.some.injEq] at hb
    refine ⟨q, ?_, ?_⟩
    · rw [← hb]
      exact findPlayer_of_mem_nodup r.players q hm (hid ▸ hids)
    · rw [← ha]
      exact ((gameBidAccepts_iff _ _ _ _).mp hacc).2.2.1
  | aiBid aCur q amt hc hm hacc =>
    refine ⟨hid, hbud, ?_⟩
    intro a pid ha hb
    simp only [setAuction, Option.some.injEq] at ha
    rw [← ha] at hb
    simp only [applyBid, Option.some.injEq] at hb
    refine ⟨q, ?_, ?_⟩
    · rw [← hb]
      exact findPlayer_of_mem_nodup r.players q hm (hid ▸ hids)
    · rw [← ha]
      exact ((placeAIBidAccepts_iff _ _ _).mp hacc).2.1
  | tick aCur hc =>
    have hnext : ∀ (x : Room), x.players = r.players →
        x.currentAuction = some (tickAuction aCur) → InvBudgets ids x := by
      intro x hxp hxa
      refine ⟨by rw [hxp]; exact hid, by rw [hxp]; exact hbud, ?_⟩
      intro a pid ha hb
      rw [hxa] at ha
      simp only [Option.some.injEq] at ha
      rw [← ha] at hb
      simp only [tickAuction] at hb
      obtain ⟨w, hw, hble⟩ := hcover aCur pid hc hb
      refine ⟨w, by rw [hxp]; exact hw, ?_⟩
      rw [← ha]
      simpa [tickAuction] using hble
    rw [tickRoom]
    split_ifs with ht
    · exact invBudgets_endCurrentAuction ids _ (hnext _ rfl rfl)
    · exact hnext _ rfl rfl

lemma sumSquads_gameStart (r : Room) (h : GameStart r) : sumSquads r = 0 := by
  rw [sumSquads]
  apply List.sum_eq_zero
  intro n hn
  rcases List.mem_map.mp hn with ⟨p, hp, rfl⟩
  rw [(h.2.2.1 p hp).1]
  rfl

lemma gameStart_roomC4 : GameStart roomC4 := by
  refine ⟨rfl, rfl, ?_, ?_⟩
  · intro p hp
    have : p = alice ∨ p = botB := by
      simpa [roomC4] using hp
    rcases this with rfl | rfl <;> exact ⟨rfl, rfl⟩
  · decide

/-- C2 (amended): what the resolution logic actually bounds is the COMBINED
size of the two squads: for every room reachable from a game start with
`squadSize ≥ 1`, the sum of both participants' squad lengths never exceeds
`2 * settings.squadSize` (resolution appends one item and the game ends
when the combined cap is reached).  An individual squad may exceed
`settings.squadSize` — see the counterexample, where one participant wins
every auction. -/
theorem C2_amended (r0 r : Room) (h0 : GameStart r0)
    (hS : 1 ≤ r0.settings.squadSize) (hreach : Reachable r0 r) :
    sumSquads r ≤ 2 * r0.settings.squadSize := by
  have hinv0 : InvSquads r0.settings.squadSize r0 := by
    refine ⟨rfl, fun hsome => ?_, fun _ => ?_, ?_⟩
    · simp [h0.2.1] at hsome
    · rw [sumSquads_gameStart r0 h0]; omega
    · rw [sumSquads_gameStart r0 h0]; omega
  have hinv : InvSquads r0.settings.squadSize r := by
    induction hreach with
    | refl => exact hinv0
    | tail hsteps hstep ih => exact invSquads_step _ hstep ih
  exact hinv.2.2.2

/-- C2 (amended) witness: from the default two-player game start, after
opening the first auction the combined squad size (0) is within the cap 32. -/
theorem C2_amended_witness :
    GameStart roomC4 ∧ 1 ≤ roomC4.settings.squadSize ∧
    sumSquads (startNextAuction roomC4) ≤ 2 * roomC4.settings.squadSize := by
  have hr : Reachable roomC4 (startNextAuction roomC4) :=
    Relation.ReflTransGen.single (Step.start roomC4 rfl rfl)
  exact ⟨gameStart_roomC4, by norm_num [roomC4, DEFAULT_SETTINGS],
    C2_amended roomC4 _ gameStart_roomC4 (by norm_num [roomC4, DEFAULT_SETTINGS]) hr⟩

/-- C3: for every room reachable from a game start with a nonnegative
configured starting budget, no participant's budget is ever negative:
every accepted bid (either path) is bounded by the bidder's budget at
acceptance, budgets change only when a resolution charges the winning
bidder its own current bid, and that bid is still covered at resolution
time. -/
theorem C3_budget_nonneg (r0 r : Room) (h0 : GameStart r0)
    (hB : 0 ≤ r0.settings.startingBudget) (hreach : Reachable r0 r) :
    ∀ p ∈ r.players, 0 ≤ p.budget := by
  have hinv0 : InvBudgets (r0.players.map (fun p => p.id)) r0 := by
    refine ⟨rfl, ?_, ?_⟩
    · intro p hp
      rw [(h0.2.2.1 p hp).2]
      exact hB
    · intro a pid ha hb
      rw [h0.2.1] at ha
      cases ha
  have hinv : InvBudgets (r0.players.map (fun p => p.id)) r := by
    induction hreach with
    | refl => exact hinv0
    | tail hsteps hstep ih => exact invBudgets_step _ h0.2.2.2 hstep ih
  exact hinv.2.1

/-- C3 witness: from the default game start, budgets after opening the
first auction are still nonnegative. -/
theorem C3_budget_nonneg_witness :
    GameStart roomC4 ∧ (0 : ℚ) ≤ roomC4.settings.startingBudget ∧
    ∀ p ∈ (startNextAuction roomC4).players, 0 ≤ p.budget := by
  have hr : Reachable roomC4 (startNextAuction roomC4) :=
    Relation.ReflTransGen.single (Step.start roomC4 rfl rfl)
  exact ⟨gameStart_roomC4, by norm_num [roomC4, DEFAULT_SETTINGS],
    C3_budget_nonneg roomC4 _ gameStart_roomC4
      (by norm_num [roomC4, DEFAULT_SETTINGS]) hr⟩

/-! C2 counterexample: a two-item game with `squadSize = 1` in which the
first participant wins both auctions and ends with a squad of 2. -/

def c2item1 : DraftItem :=
  { id := 21, name := "Q1", rating := 70, position := "ST"
    altPositions := [], rarity := "common", age := some 25
    club := none, league := none, nation := none
    overallStats := none, basePrice := 0 }

def c2item2 : DraftItem :=
  { id := 22, name := "Q2", rating := 70, position := "ST"
    altPositions := [], rarity := "common", age := some 25
    club := none, league := none, nation := none
    overallStats := none, basePrice := 0 }

def c2settings : Settings :=
  { startingBudget := 100, squadSize := 1, auctionTimeLimit := 1, minBidIncrement := 1 }

def c2p1 : Participant := { id := 11, name := "P1", budget := 100, squad := [], isAI := false }

def c2p2 : Participant := { id := 12, name := "P2", budget := 100, squad := [], isAI := false }

def c2s0 : Room :=
  { players := [c2p1, c2p2], settings := c2settings
    auctionQueue := [c2item1, c2item2], soldPlayers := []
    currentAuction := none, status := "auction" }

/-- A human bid routed through the handler's mutation, as one room
function (used to spell out concrete traces). -/
def doBid (r : Room) (p : Participant) (amt : ℚ) : Room :=
  match r.currentAuction with
  | some a => setAuction r (applyBid a p.id p.name amt false)
  | none => r

/-- Iterated timer ticks while an auction is live. -/
def tickSteps : ℕ → Room → Room
  | 0, r => r
  | n + 1, r =>
    match r.currentAuction with
    | some a => tickSteps n (tickRoom r a)
    | none => r

lemma reach_tickSteps (n : ℕ) (r : Room) : Reachable r (tickSteps n r) := by
  induction n generalizing r with
  | zero => exact Relation.ReflTransGen.refl
  | succ n ih =>
    rcases hc : r.currentAuction with _ | a
    · simp only [tickSteps, hc]
      exact Relation.ReflTransGen.refl
    · simp only [tickSteps, hc]
      exact Relation.ReflTransGen.head (Step.tick r a hc) (ih (tickRoom r a))

lemma step_doBid (r : Room) (a : Auction) (p : Participant) (amt : ℚ)
    (hc : r.currentAuction = some a) (hs : r.status = "auction")
    (hm : p ∈ r.players) (hacc : gameBidAccepts a r.settings p amt = true) :
    Step r (doBid r p amt) := by
  simp only [doBid, hc]
  exact Step.humanBid r a p amt hs hc hm hacc

def c2a1 : Auction :=
  { player := c2item1, currentBid := c2item1.basePrice * 1000000
    currentBidder := none, timeRemaining := 1, bidHistory := [], status := "active" }

def c2a2 : Auction :=
  { player := c2item2, currentBid := c2item2.basePrice * 1000000
    currentBidder := none, timeRemaining := 1, bidHistory := [], status := "active" }

/-- The room after the first auction has been won by `c2p1` and resolved. -/
def c2mid : Room := tickSteps 10 (doBid (startNextAuction c2s0) c2p1 1)

/-- The first participant as stored after winning the first auction. -/
def c2w : Participant :=
  { id := 11, name := "P1", budget := (100 : ℚ) - 1, squad := [c2item1], isAI := false }

/-- The final room: the first participant has also won the second auction. -/
def c2final : Room := tickSteps 10 (doBid (startNextAuction c2mid) c2w 1)

/-- C2: the claim says no individual squad ever exceeds
`settings.squadSize`.  It is false: from the game start `c2s0` with
`squadSize = 1`, a reachable sequence of accepted bids and resolutions
(participant 1 wins both auctions) ends with participant 1 holding a
squad of 2 items while the configured squad size is 1 — only the
COMBINED size `2 * squadSize` is enforced. -/
theorem C2_counterexample :
    GameStart c2s0 ∧ c2s0.settings.squadSize = 1 ∧
    Reachable c2s0 c2final ∧
    c2final.players.map (fun p => p.squad.length) = [2, 0] ∧
    c2final.settings.squadSize = 1 := by
  have h0 : GameStart c2s0 := by
    refine ⟨rfl, rfl, ?_, by decide⟩
    intro p hp
    have : p = c2p1 ∨ p = c2p2 := by simpa [c2s0] using hp
    rcases this with rfl | rfl <;> exact ⟨rfl, rfl⟩
  have ha1 : (startNextAuction c2s0).currentAuction = some c2a1 := rfl
  have hacc1 : gameBidAccepts c2a1 (startNextAuction c2s0).settings c2p1 1 = true := by
    norm_num [gameBidAccepts, c2a1, c2item1, c2s0, startNextAuction, c2settings, c2p1]
  have h1 : Step c2s0 (startNextAuction c2s0) := Step.start c2s0 rfl rfl
  have h2 : Step (startNextAuction c2s0) (doBid (startNextAuction c2s0) c2p1 1) :=
    step_doBid _ c2a1 c2p1 1 ha1 rfl
      (by rw [show (startNextAuction c2s0).players = c2p1 :: [c2p2] from rfl]
          exact List.mem_cons_self _ _) hacc1
  have h3 : Reachable (doBid (startNextAuction c2s0) c2p1 1) c2mid :=
    reach_tickSteps 10 _
  have ha2 : (startNextAuction c2mid).currentAuction = some c2a2 := rfl
  have hacc2 : gameBidAccepts c2a2 (startNextAuction c2mid).settings c2w 1 = true := by
    norm_num [gameBidAccepts, c2a2, c2item2, c2w, c2mid, startNextAuction, c2settings]
  have h4 : Step c2mid (startNextAuction c2mid) := Step.start c2mid rfl rfl
  have h5 : Step (startNextAuction c2mid) (doBid (startNextAuction c2mid) c2w 1) :=
    step_doBid _ c2a2 c2w 1 ha2 rfl
      (by rw [show (startNextAuction c2mid).players = c2w :: [c2p2] from rfl]
          exact List.mem_cons_self _ _) hacc2
  have h6 : Reachable (doBid (startNextAuction c2mid) c2w 1) c2final :=
    reach_tickSteps 10 _
  refine ⟨h0, rfl, ?_, by decide, rfl⟩
  exact Relation.ReflTransGen.head h1 (Relation.ReflTransGen.head h2
    (Relation.ReflTransGen.trans h3 (Relation.ReflTransGen.head h4
      (Relation.ReflTransGen.head h5 h6))))

/-! C6 fixtures. -/

def c6item : DraftItem :=
  { id := 60, name := "Star", rating := 90, position := "ST"
    altPositions := [], rarity := "rare", age := some 25
    club := none, league := none, nation := none
    overallStats := none, basePrice := 1 }

def c6ai : Participant :=
  { id := 99, name := "AI", budget := 1000000000, squad := [], isAI := true }

def c6item2 : DraftItem :=
  { id := 61, name := "Gem", rating := 90, position := "ST"
    altPositions := [], rarity := "common", age := some 25
    club := none, league := none, nation := none
    overallStats := none, basePrice := 1 }

def c6ai2 : Participant :=
  { id := 98, name := "AI2", budget := 2000, squad := [], isAI := true }

def c6auction : Auction :=
  { player := c6item2, currentBid := 111, currentBidder := none
    timeRemaining := 20, bidHistory := [], status := "active" }

def c6room : Room :=
  { players := [c6ai2], settings :=
      { startingBudget := 2000, squadSize := 16, auctionTimeLimit := 30
        minBidIncrement := 1 }
    auctionQueue := [], soldPlayers := []
    currentAuction := some c6auction, status := "auction" }

lemma c6_evaluatePlayer_eval :
    evaluatePlayer AI_DIFFICULTY_easy c6item2 c6ai2 = 566 / 11 := by
  simp [evaluatePlayer, AI_DIFFICULTY_easy, c6item2, c6ai2, rarityBonusAI,
    calculatePositionNeed]
  norm_num [min_def, max_def]

lemma c6_maxBid_eval :
    calculateMaxBid AI_DIFFICULTY_easy c6item2 c6ai2
      (evaluatePlayer AI_DIFFICULTY_easy c6item2 c6ai2) = 1000 / 9 := by
  rw [c6_evaluatePlayer_eval]
  norm_num [calculateMaxBid, AI_DIFFICULTY_easy, c6item2, c6ai2, min_def, max_def]

lemma c6_decideBid_eval :
    decideBid AI_DIFFICULTY_easy c6auction c6ai2 c6room 0 0 (1/2) = some 112 := by
  have hplayer : c6auction.player = c6item2 := rfl
  simp only [decideBid, hplayer]
  rw [if_neg (by decide : ¬(c6auction.currentBidder = some c6ai2.id)),
    if_neg (by decide : ¬(c6room.settings.squadSize ≤ c6ai2.squad.length)),
    if_neg (fun h => absurd h.1.1 (by decide)),
    if_neg (by norm_num [AI_DIFFICULTY_easy] :
      ¬(AI_DIFFICULTY_easy.bidProbability < (0 : ℚ))),
    c6_maxBid_eval,
    if_neg (by norm_num [c6auction] : ¬((1000 : ℚ)/9 ≤ c6auction.currentBid))]
  norm_num [c6auction, c6room, c6ai2, AI_DIFFICULTY_easy, jsCeil_as_floor,
    min_def, max_def]

/-- C6: both halves of the claim fail.  First, `calculateMaxBid` scales the
base price by `0.5 + 1.5 * score / 100`, not the claimed
`0.5 + 2 * score / 100`: at score 100 with base price 1 and a large budget
the function returns 2,000,000 while the claimed formula gives 2,500,000.
Second, a scheduled amount can exceed the ceiling: with budget 2000,
increment 1 and `currentBid = 111`, the ceiling is `2000/18 = 1000/9 ≈
111.11`, yet `decideBid` schedules 112, because the clamp to
`currentBid + minIncrement` is applied after the clamp to the ceiling. -/
theorem C6_counterexample :
    calculateMaxBid AI_DIFFICULTY_easy c6item c6ai 100 = 2000000 ∧
    min (min (c6item.basePrice * 1000000 * (0.5 + 2 * 100 / 100))
        (c6ai.budget * AI_DIFFICULTY_easy.maxBidPercentage))
      (c6ai.budget / 18) = 2500000 ∧
    (2000000 : ℚ) ≠ 2500000 ∧
    decideBid AI_DIFFICULTY_easy c6auction c6ai2 c6room 0 0 (1/2) = some 112 ∧
    calculateMaxBid AI_DIFFICULTY_easy c6auction.player c6ai2
      (evaluatePlayer AI_DIFFICULTY_easy c6auction.player c6ai2) < 112 := by
  refine ⟨?_, ?_, by norm_num, c6_decideBid_eval, ?_⟩
  · norm_num [calculateMaxBid, AI_DIFFICULTY_easy, c6item, c6ai, min_def]
  · norm_num [c6item, c6ai, AI_DIFFICULTY_easy, min_def]
  · rw [show c6auction.player = c6item2 from rfl, c6_maxBid_eval]
    norm_num

/-- C6 (amended): `calculateMaxBid` returns the minimum of the scaled base
price times `0.5 + 1.5 * score/100`, `budget * maxBidPercentage` and
`budget / max(1, (36 - 2*squadLength)/2)`; in particular it never exceeds
`budget * maxBidPercentage` (the Scenario C ceiling).  Every amount
`decideBid` schedules is at most the budget, strictly above the current
bid, and at most `max(maxBid, currentBid + minBidIncrement)` — it can
pierce the `calculateMaxBid` ceiling by less than one increment, but by no
more. -/
theorem C6_amended (cfg : AIConfig) (auction : Auction) (ai : Participant)
    (room : Room) (r1 r2 r3 amt : ℚ)
    (h : decideBid cfg auction ai room r1 r2 r3 = some amt) :
    amt ≤ ai.budget ∧ auction.currentBid < amt ∧
    amt ≤ max (calculateMaxBid cfg auction.player ai
        (evaluatePlayer cfg auction.player ai))
      (auction.currentBid + room.settings.minBidIncrement) ∧
    calculateMaxBid cfg auction.player ai
        (evaluatePlayer cfg auction.player ai) ≤
      ai.budget * cfg.maxBidPercentage := by
  have hcap : calculateMaxBid cfg auction.player ai
      (evaluatePlayer cfg auction.player ai) ≤ ai.budget * cfg.maxBidPercentage := by
    rw [calculateMaxBid]
    exact le_trans (min_le_left _ _) (min_le_right _ _)
  simp only [decideBid] at h
  split_ifs at h <;>
  first
    | (rw [Option.some.injEq] at h
       subst h
       rename_i hguard
       push_neg at hguard
       refine ⟨hguard.1, hguard.2, ?_, hcap⟩
       apply max_le
       · exact le_trans (le_trans (min_le_left _ _) (min_le_right _ _)) (le_max_left _ _)
       · exact le_max_right _ _)
    | cases h

/-- C6 (amended) witness: the concrete scheduled bid of 112 satisfies the
amended bounds. -/
theorem C6_amended_witness :
    decideBid AI_DIFFICULTY_easy c6auction c6ai2 c6room 0 0 (1/2) = some 112 ∧
    (112 : ℚ) ≤ c6ai2.budget ∧ c6auction.currentBid < 112 ∧
    (112 : ℚ) ≤ max (calculateMaxBid AI_DIFFICULTY_easy c6auction.player c6ai2
        (evaluatePlayer AI_DIFFICULTY_easy c6auction.player c6ai2))
      (c6auction.currentBid + c6room.settings.minBidIncrement) := by
  have h := C6_amended AI_DIFFICULTY_easy c6auction c6ai2 c6room 0 0 (1/2) 112
    c6_decideBid_eval
  exact ⟨c6_decideBid_eval, h.1, h.2.1, h.2.2.1⟩

/-! C7 / C8 fixtures. -/

/-- A minimal catalog item for squad fixtures. -/
def mkItem (i : ℕ) (pos : String) : DraftItem :=
  { id := i, name := "p" ++ toString i, rating := 80, position := pos
    altPositions := [], rarity := "common", age := some 25
    club := none, league := none, nation := none
    overallStats := none, basePrice := 50 }

/-- Scenario B squad: 0 GK, 4 DEF, 4 MID, 3 FWD. -/
def squadB : List DraftItem :=
  [mkItem 1 "CB", mkItem 2 "CB", mkItem 3 "LB", mkItem 4 "RB",
   mkItem 5 "CM", mkItem 6 "CM", mkItem 7 "CAM", mkItem 8 "CDM",
   mkItem 9 "ST", mkItem 10 "LW", mkItem 11 "RW"]

/-- A valid squad: 1 GK, 4 DEF, 3 MID, 3 FWD. -/
def squadV : List DraftItem :=
  [mkItem 1 "GK", mkItem 2 "CB", mkItem 3 "CB", mkItem 4 "LB", mkItem 5 "RB",
   mkItem 6 "CM", mkItem 7 "CM", mkItem 8 "CDM",
   mkItem 9 "ST", mkItem 10 "LW", mkItem 11 "RW"]

/-- A squad passing every `validateSquad` check but containing the same
item (id 2) twice. -/
def squadDup : List DraftItem :=
  [mkItem 1 "GK", mkItem 2 "CB", mkItem 2 "CB", mkItem 3 "LB", mkItem 4 "RB",
   mkItem 5 "CM", mkItem 6 "CM", mkItem 7 "CDM",
   mkItem 8 "ST", mkItem 9 "LW", mkItem 10 "RW"]

/-- C8: the claim says `isValid` holds exactly when the five count checks
hold AND the roster has no duplicate items.  It is false: `validateSquad`
never checks for duplicates, so a roster holding the same item twice (two
copies of item 2) is reported valid. -/
theorem C8_counterexample :
    (validateSquad squadDup).isValid = true ∧
    ¬ (squadDup.map (fun p => p.id)).Nodup := by
  constructor <;> decide

/-- C8 (amended): `validateSquad` reports `isValid = true` exactly when
the roster has exactly 11 players, at least 1 goalkeeper, 3 defenders, 2
midfielders and 1 forward by position group — duplicates are not checked.
Scenario B holds: the 0-GK/4-DEF/4-MID/3-FWD squad yields
`hasGoalkeeper = false`, `isValid = false`, and the error string naming
the missing goalkeeper. -/
theorem C8_amended :
    (∀ players : List DraftItem,
      (validateSquad players).isValid = true ↔
        (players.length = 11 ∧
          1 ≤ (players.filter (fun p => getPositionGroup p.position == "GK")).length ∧
          3 ≤ (players.filter (fun p => getPositionGroup p.position == "DEF")).length ∧
          2 ≤ (players.filter (fun p => getPositionGroup p.position == "MID")).length ∧
          1 ≤ (players.filter (fun p => getPositionGroup p.position == "FWD")).length)) ∧
    (validateSquad squadB).hasGoalkeeper = false ∧
    (validateSquad squadB).isValid = false ∧
    "Squad needs at least 1 Goalkeeper" ∈ (validateSquad squadB).errors := by
  refine ⟨?_, by decide, by decide, by decide⟩
  intro players
  simp [validateSquad, and_assoc]

/-! C7 fixtures: two participants with identical valid squads and equal
scores, the second with the larger remaining budget. -/

def c7p1 : Participant :=
  { id := 1, name := "A", budget := 10000000, squad := squadV, isAI := false }

def c7p2 : Participant :=
  { id := 2, name := "B", budget := 50000000, squad := squadV, isAI := false }

def c7room : Room :=
  { players := [c7p1, c7p2], settings := DEFAULT_SETTINGS
    auctionQueue := [], soldPlayers := []
    currentAuction := none, status := "finished" }

lemma managerIQ_no_sales (players : List DraftItem) (pid : ℕ) (B : ℚ) :
    calculateManagerIQScore players [] pid B = ⟨0⟩ := by
  simp [calculateManagerIQScore]

lemma analyzeTeam_score_eq_of_squad_eq (p q : Participant) (B : ℚ)
    (hsq : p.squad = q.squad) :
    (analyzeTeam p [] B).finalScore = (analyzeTeam q [] B).finalScore := by
  simp only [analyzeTeam, managerIQ_no_sales, hsq]

/-- C7: the claim says a tie on final score is broken by average rating
and then by remaining budget.  It is false: `calculateGameResult` contains
no tie-break at all — both valid-squad comparisons use
`analysis1.finalScore >= analysis2.finalScore`, so player 1 wins every
tie.  Concretely, with identical (hence equal-scoring, equal-rating)
valid squads and player 2 holding 50,000,000 budget against player 1's
10,000,000, the claim requires player 2 to win, but player 1 is declared
winner. -/
theorem C7_counterexample :
    (analyzeTeam c7p1 [] DEFAULT_SETTINGS.startingBudget).validation.isValid = true ∧
    (analyzeTeam c7p2 [] DEFAULT_SETTINGS.startingBudget).validation.isValid = true ∧
    (analyzeTeam c7p1 [] DEFAULT_SETTINGS.startingBudget).finalScore =
      (analyzeTeam c7p2 [] DEFAULT_SETTINGS.startingBudget).finalScore ∧
    (analyzeTeam c7p1 [] DEFAULT_SETTINGS.startingBudget).power.avgOverall =
      (analyzeTeam c7p2 [] DEFAULT_SETTINGS.startingBudget).power.avgOverall ∧
    c7p1.budget < c7p2.budget ∧
    (calculateGameResult c7room).map (fun g => g.winner.id) = some c7p1.id ∧
    (calculateGameResult c7room).map (fun g => g.winByDefault) = some false := by
  have hv1 : (analyzeTeam c7p1 [] DEFAULT_SETTINGS.startingBudget).validation.isValid = true := by
    show (validateSquad squadV).isValid = true
    decide
  have hv2 : (analyzeTeam c7p2 [] DEFAULT_SETTINGS.startingBudget).validation.isValid = true := by
    show (validateSquad squadV).isValid = true
    decide
  have hfs := analyzeTeam_score_eq_of_squad_eq c7p1 c7p2
    DEFAULT_SETTINGS.startingBudget rfl
  refine ⟨hv1, hv2, hfs, rfl, by norm_num [c7p1, c7p2], ?_, ?_⟩ <;>
  · show (calculateGameResult c7room).map _ = _
    have hroom : c7room.players = c7p1 :: c7p2 :: [] := rfl
    simp only [calculateGameResult, hroom]
    rw [show c7room.soldPlayers = [] from rfl,
      show c7room.settings.startingBudget = DEFAULT_SETTINGS.startingBudget from rfl]
    simp [hv1, hv2, hfs]

/-- C7 (amended): when both squads are valid, the winner is exactly
`players[0]` when `finalScore₂ ≤ finalScore₁` and `players[1]`
otherwise, with no default flag — so the participant with the strictly
higher stored `finalScore` wins, and an exact tie on `finalScore` is
always awarded to `players[0]`, regardless of both sides' average ratings
and remaining budgets (no rating or budget tie-break exists in the code). -/
theorem C7_amended (room : Room) (p1 p2 : Participant) (rest : List Participant)
    (h : room.players = p1 :: p2 :: rest)
    (hv1 : (analyzeTeam p1 room.soldPlayers room.settings.startingBudget).validation.isValid = true)
    (hv2 : (analyzeTeam p2 room.soldPlayers room.settings.startingBudget).validation.isValid = true) :
    ((calculateGameResult room).map (fun g => g.winner) =
      some (if (analyzeTeam p2 room.soldPlayers room.settings.startingBudget).finalScore ≤
          (analyzeTeam p1 room.soldPlayers room.settings.startingBudget).finalScore
        then p1 else p2)) ∧
    ((analyzeTeam p2 room.soldPlayers room.settings.startingBudget).finalScore <
        (analyzeTeam p1 room.soldPlayers room.settings.startingBudget).finalScore →
      (calculateGameResult room).map (fun g => g.winner) = some p1) ∧
    ((analyzeTeam p1 room.soldPlayers room.settings.startingBudget).finalScore <
        (analyzeTeam p2 room.soldPlayers room.settings.startingBudget).finalScore →
      (calculateGameResult room).map (fun g => g.winner) = some p2) ∧
    ((analyzeTeam p1 room.soldPlayers room.settings.startingBudget).finalScore =
        (analyzeTeam p2 room.soldPlayers room.settings.startingBudget).finalScore →
      (calculateGameResult room).map (fun g => g.winner) = some p1) ∧
    (calculateGameResult room).map (fun g => g.winByDefault) = some false := by
  refine ⟨?_, ?_, ?_, ?_, ?_⟩
  · simp only [calculateGameResult, h]
    by_cases hle : (analyzeTeam p2 room.soldPlayers room.settings.startingBudget).finalScore ≤
        (analyzeTeam p1 room.soldPlayers room.settings.startingBudget).finalScore <;>
      simp [hv1, hv2, hle]
  · intro hlt
    simp only [calculateGameResult, h]
    simp [hv1, hv2, hlt.le]
  · intro hlt
    simp only [calculateGameResult, h]
    simp [hv1, hv2, hlt.not_le]
  · intro heq
    simp only [calculateGameResult, h]
    simp [hv1, hv2, heq]
  · simp only [calculateGameResult, h]
    by_cases hle : (analyzeTeam p2 room.soldPlayers room.settings.startingBudget).finalScore ≤
        (analyzeTeam p1 room.soldPlayers room.settings.startingBudget).finalScore <;>
      simp [hv1, hv2, hle]

/-- C7 (amended) witness: the concrete tied room is decided for player 1. -/
theorem C7_amended_witness :
    c7room.players = c7p1 :: c7p2 :: [] ∧
    (calculateGameResult c7room).map (fun g => g.winner) = some c7p1 := by
  have hv1 : (analyzeTeam c7p1 c7room.soldPlayers c7room.settings.startingBudget).validation.isValid = true := by
    show (validateSquad squadV).isValid = true
    decide
  have hv2 : (analyzeTeam c7p2 c7room.soldPlayers c7room.settings.startingBudget).validation.isValid = true := by
    show (validateSquad squadV).isValid = true
    decide
  have heq : (analyzeTeam c7p1 c7room.soldPlayers c7room.settings.startingBudget).finalScore =
      (analyzeTeam c7p2 c7room.soldPlayers c7room.settings.startingBudget).finalScore :=
    analyzeTeam_score_eq_of_squad_eq c7p1 c7p2 _ rfl
  exact ⟨rfl, (C7_amended c7room c7p1 c7p2 [] rfl hv1 hv2).2.2.2.1 heq⟩

/-! C9 infrastructure: range bounds for the rounded pillar totals. -/

lemma round1_nonneg (q : ℚ) (h : 0 ≤ q) : 0 ≤ round1 q := by
  rw [round1, jsRound]
  apply div_nonneg _ (by norm_num)
  exact_mod_cast Int.floor_nonneg.mpr (by linarith)

lemma round1_le_100 (q : ℚ) (h : q ≤ 100) : round1 q ≤ 100 := by
  rw [round1, jsRound]
  rw [div_le_iff (by norm_num : (0:ℚ) < 10)]
  have h2 : ⌊q * 10 + 1/2⌋ ≤ ⌊(1000.5 : ℚ)⌋ := Int.floor_le_floor (by linarith)
  have h3 : ⌊(1000.5 : ℚ)⌋ = 1000 := by norm_num
  rw [h3] at h2
  calc ((⌊q * 10 + 1/2⌋ : ℤ) : ℚ) ≤ (1000 : ℚ) := by exact_mod_cast h2
    _ = 100 * 10 := by norm_num

lemma keyStatsOf_nonneg (p : DraftItem) : 0 ≤ keyStatsOf p := by
  rw [keyStatsOf]
  split_ifs <;> positivity

lemma ite_zero_nonneg (c : Prop) [Decidable c] (x : ℚ) (hx : 0 ≤ x) :
    0 ≤ if c then x else 0 := by
  split_ifs <;> simp [hx]

lemma sub5_le_100 (b c d e f : ℚ) (hb : 0 ≤ b) (hc : 0 ≤ c) (hd : 0 ≤ d)
    (he : 0 ≤ e) (hf : 0 ≤ f) : 100 - b - c - d - e - f ≤ 100 := by linarith

lemma sub3_le_100 (b c d : ℚ) (hb : 0 ≤ b) (hc : 0 ≤ c) (hd : 0 ≤ d) :
    100 - b - c - d ≤ 100 := by linarith

lemma sub2_le_100 (b c : ℚ) (hb : 0 ≤ b) (hc : 0 ≤ c) :
    100 - b - c ≤ 100 := by linarith

lemma balance_combo_le (pc wb ad ds : ℚ) (h1 : pc ≤ 100) (h2 : wb ≤ 100)
    (h3 : ad ≤ 100) (h4 : ds ≤ 100) :
    pc * 0.4 + wb * 0.2 + ad * 0.15 + ds * 0.25 ≤ 100 := by nlinarith

lemma power_total_range (players : List DraftItem) :
    0 ≤ (calculatePowerScore players).total ∧
      (calculatePowerScore players).total ≤ 100 := by
  rw [calculatePowerScore]
  by_cases h : players.length = 0
  · rw [if_pos h]
    norm_num
  · rw [if_neg h]
    dsimp only
    have hn : (0:ℚ) < players.length := by
      exact_mod_cast Nat.pos_of_ne_zero h
    constructor
    · apply round1_nonneg
      apply le_min (by norm_num)
      refine add_nonneg (mul_nonneg (add_nonneg ?_ ?_) (by norm_num))
        (add_nonneg ?_ ?_)
      · apply mul_nonneg _ (by norm_num)
        apply div_nonneg _ hn.le
        apply List.sum_nonneg
        intro x hx
        rcases List.mem_map.mp hx with ⟨p, -, rfl⟩
        positivity
      · apply mul_nonneg _ (by norm_num)
        apply div_nonneg _ hn.le
        apply List.sum_nonneg
        intro x hx
        rcases List.mem_map.mp hx with ⟨p, -, rfl⟩
        exact keyStatsOf_nonneg p
      · positivity
      · positivity
    · exact round1_le_100 _ (min_le_left _ _)

lemma tactical_total_range (players : List DraftItem) (f : Formation) :
    0 ≤ (calculateTacticalScore players f).total ∧
      (calculateTacticalScore players f).total ≤ 100 := by
  rw [calculateTacticalScore]
  by_cases h : players.length = 0
  · rw [if_pos h]
    norm_num
  · rw [if_neg h]
    dsimp only
    constructor
    · exact round1_nonneg _ (le_max_left _ _)
    · apply round1_le_100
      apply max_le (by norm_num)
      exact max_le (by norm_num) (min_le_left _ _)

lemma chemistry_total_range (players : List DraftItem) :
    0 ≤ (calculateChemistryScore players).total ∧
      (calculateChemistryScore players).total ≤ 100 := by
  rw [calculateChemistryScore]
  by_cases h : players.length < 2
  · rw [if_pos h]
    norm_num
  · rw [if_neg h]
    dsimp only
    constructor
    · apply round1_nonneg
      apply le_min (by norm_num)
      refine add_nonneg (add_nonneg (add_nonneg ?_ ?_) ?_) ?_
      · split_ifs with hl
        · apply mul_nonneg _ (by norm_num)
          apply div_nonneg
          · apply List.sum_nonneg
            intro x hx
            exact (of_decide_eq_true (List.mem_filter.mp hx).2).le
          · have h2 : (2:ℚ) ≤ (players.length:ℚ) := by
              exact_mod_cast not_lt.mp h
            apply div_nonneg _ (by norm_num)
            nlinarith
        · exact le_rfl
      · apply le_min (by norm_num)
        positivity
      · apply le_min (by norm_num)
        positivity
      · positivity
    · exact round1_le_100 _ (min_le_left _ _)

lemma balance_total_range (players : List DraftItem) :
    0 ≤ (calculateBalanceScore players).total ∧
      (calculateBalanceScore players).total ≤ 100 := by
  rw [calculateBalanceScore]
  by_cases h : players.length = 0
  · rw [if_pos h]
    norm_num
  · rw [if_neg h]
    dsimp only
    constructor
    · exact round1_nonneg _ (le_max_left _ _)
    · apply round1_le_100
      apply max_le (by norm_num)
      refine balance_combo_le _ _ _ _ ?_ ?_ ?_ ?_
      · refine sub5_le_100 _ _ _ _ _ ?_ ?_ ?_ ?_ ?_ <;>
          exact ite_zero_nonneg _ _ (by positivity)
      · refine sub3_le_100 _ _ _ ?_ ?_ ?_ <;>
          exact ite_zero_nonneg _ _ (by positivity)
      · refine sub2_le_100 _ _ ?_ ?_ <;>
          exact ite_zero_nonneg _ _ (by positivity)
      · split_ifs with hlen
        · have hle : ((players.length : ℚ)) ≤ 10 := by
            exact_mod_cast Nat.lt_succ_iff.mp hlen
          linarith
        · exact le_rfl

lemma managerIQ_total_range (players : List DraftItem)
    (soldPlayers : List SoldRecord) (pid : ℕ) (B : ℚ) :
    0 ≤ (calculateManagerIQScore players soldPlayers pid B).total ∧
      (calculateManagerIQScore players soldPlayers pid B).total ≤ 100 := by
  rw [calculateManagerIQScore]
  dsimp only
  by_cases h : (soldPlayers.filter (fun sp => sp.buyerId == pid)).length = 0
  · rw [if_pos h]
    norm_num
  · rw [if_neg h]
    dsimp only
    constructor
    · exact round1_nonneg _ (le_max_left _ _)
    · apply round1_le_100
      exact max_le (by norm_num) (min_le_left _ _)

/-- C9 (amended): every stored pillar total lies in [0, 100], and the
stored final score equals `round1` of the weighted pillar sum (weights
0.30/0.20/0.20/0.15/0.15) when the squad is valid — but for an invalid
squad it equals `round1(max(0, weightedSum * 0.3))`, the 70% penalty the
original claim omits. -/
theorem C9_amended (p : Participant) (sold : List SoldRecord) (B : ℚ) :
    (0 ≤ (calculatePowerScore p.squad).total ∧
      (calculatePowerScore p.squad).total ≤ 100) ∧
    (0 ≤ (calculateTacticalScore p.squad (selectBestFormation p.squad)).total ∧
      (calculateTacticalScore p.squad (selectBestFormation p.squad)).total ≤ 100) ∧
    (0 ≤ (calculateChemistryScore p.squad).total ∧
      (calculateChemistryScore p.squad).total ≤ 100) ∧
    (0 ≤ (calculateBalanceScore p.squad).total ∧
      (calculateBalanceScore p.squad).total ≤ 100) ∧
    (0 ≤ (calculateManagerIQScore p.squad sold p.id B).total ∧
      (calculateManagerIQScore p.squad sold p.id B).total ≤ 100) ∧
    (analyzeTeam p sold B).finalScore =
      (if (validateSquad p.squad).isValid = true
       then round1
         ((calculatePowerScore p.squad).total * 0.30 +
          (calculateTacticalScore p.squad (selectBestFormation p.squad)).total * 0.20 +
          (calculateChemistryScore p.squad).total * 0.20 +
          (calculateBalanceScore p.squad).total * 0.15 +
          (calculateManagerIQScore p.squad sold p.id B).total * 0.15)
       else round1 (max 0
         (((calculatePowerScore p.squad).total * 0.30 +
           (calculateTacticalScore p.squad (selectBestFormation p.squad)).total * 0.20 +
           (calculateChemistryScore p.squad).total * 0.20 +
           (calculateBalanceScore p.squad).total * 0.15 +
           (calculateManagerIQScore p.squad sold p.id B).total * 0.15) * 0.3))) := by
  refine ⟨power_total_range _, tactical_total_range _ _, chemistry_total_range _,
    balance_total_range _, managerIQ_total_range _ _ _ _, ?_⟩
  simp only [analyzeTeam, SCORE_WEIGHTS]
  split_ifs with h <;> rfl

/-! C9 counterexample fixtures: a one-goalkeeper squad (invalid). -/

def c9gk : DraftItem :=
  { id := 91, name := "Keeper", rating := 90, position := "GK"
    altPositions := [], rarity := "legendary", age := some 25
    club := none, league := none, nation := none
    overallStats := none, basePrice := 50 }

def c9p : Participant :=
  { id := 5, name := "Solo", budget := 0, squad := [c9gk], isAI := false }

lemma c9_power_eval : (calculatePowerScore [c9gk]).total = 941/10 := by
  rw [calculatePowerScore, if_neg (by decide)]
  dsimp only
  simp [c9gk, keyStatsOf, getPositionGroup, statOr0]
  norm_num [round1, jsRound, min_def]

lemma c9_formation : selectBestFormation [c9gk] = formation433 := by decide

lemma c9_passes :
    tacticalPass3 [c9gk] (tacticalPass2 [c9gk] (tacticalPass1 [c9gk]
      ⟨formation433.positions, [], 0, 0⟩)) =
    ⟨["LB", "CB", "CB", "RB", "CM", "CM", "CM", "LW", "ST", "RW"], [91], 1, 0⟩ := by
  decide

lemma c9_tactical_eval :
    (calculateTacticalScore [c9gk] (selectBestFormation [c9gk])).total = 100 := by
  rw [c9_formation, calculateTacticalScore, if_neg (by decide)]
  dsimp only
  rw [c9_passes]
  simp [c9gk, POSITION_COMPATIBILITY]
  norm_num [round1, jsRound, min_def, max_def]

lemma c9_chem_eval : (calculateChemistryScore [c9gk]).total = 0 := by
  rw [calculateChemistryScore, if_pos (by decide)]

lemma c9_balance_eval : (calculateBalanceScore [c9gk]).total = 373/10 := by
  rw [calculateBalanceScore, if_neg (by decide)]
  dsimp only
  simp [c9gk, getPositionGroup, jsAgeOr]
  norm_num [round1, jsRound, max_def]

lemma c9_final_eval : (analyzeTeam c9p [] 1000000000).finalScore = 161/10 := by
  simp only [analyzeTeam, SCORE_WEIGHTS]
  rw [show c9p.squad = [c9gk] from rfl, if_neg (by decide)]
  rw [c9_power_eval, c9_tactical_eval, c9_chem_eval, c9_balance_eval,
    show c9p.id = 5 from rfl, managerIQ_no_sales]
  norm_num [round1, jsRound, max_def]

/-- C9: the claim says the stored weighted final score of EVERY squad
equals `round1` of the weighted pillar sum.  It is false for invalid
squads, which keep only 30% of the weighted score: the one-goalkeeper
squad has weighted pillar sum 53.825 (rounding to 53.8 = 269/5), but the
stored final score is `round1(max(0, 53.825 * 0.3)) = 16.1`. -/
theorem C9_counterexample :
    (validateSquad c9p.squad).isValid = false ∧
    (analyzeTeam c9p [] 1000000000).finalScore = 161/10 ∧
    round1 ((calculatePowerScore c9p.squad).total * 0.30 +
      (calculateTacticalScore c9p.squad (selectBestFormation c9p.squad)).total * 0.20 +
      (calculateChemistryScore c9p.squad).total * 0.20 +
      (calculateBalanceScore c9p.squad).total * 0.15 +
      (calculateManagerIQScore c9p.squad [] c9p.id 1000000000).total * 0.15) = 269/5 ∧
    (161/10 : ℚ) ≠ 269/5 := by
  refine ⟨by decide, c9_final_eval, ?_, by norm_num⟩
  rw [show c9p.squad = [c9gk] from rfl]
  rw [c9_power_eval, c9_tactical_eval, c9_chem_eval, c9_balance_eval,
    show c9p.id = 5 from rfl, managerIQ_no_sales]
  norm_num [round1, jsRound]

end DraftFC
